import Mathlib

/-!
QR login sessions (pocket-id): a shallow embedding.

Embedding of `backend/internal/service/qr_login_service.go` and of the record
`backend/internal/model/qr_login_session.go`.

* The database is an explicit value `DB` that every operation receives and returns.
* Everything the service reads from outside the database during one call
  (the clock, the random generator, the JWT service, failures of individual
  database statements) is gathered in one record `Env`, so that every operation is
  a total, executable function of `Env`, `DB` and its Go arguments.
* A transaction (`db.Begin()` with the deferred `tx.Rollback()`) is modelled by
  computing on a working copy and returning that copy only when `tx.Commit()`
  succeeds; on every other path the database that was passed in is returned.
* Go's multiple return values are kept as tuples, the `error` being an
  `Option Error` (`none` is Go's `nil`).
-/

namespace QrLogin

/-! ## Time -/

/-- One second, in nanoseconds (the unit of Go's `time.Duration`). -/
def Second : Nat := 1000000000

/-- One minute, in nanoseconds. -/
def Minute : Nat := 60 * Second

/-- The constant `QrLoginSessionDuration = 5 * time.Minute`. -/
def QrLoginSessionDuration : Nat := 5 * Minute

/-! ## Records -/

/-- The record `model.User`. Its declaration is outside the embedded files; the service
only relies on its primary key (the target of `QrLoginSession.UserID`) and on its zero
value `model.User{}`. `Username` stands for the remaining columns. -/
structure User where
  ID : String
  Username : String
deriving DecidableEq, Repr

/-- Go's zero value `model.User{}`. -/
def User.zero : User := { ID := "", Username := "" }

/-- The columns of `model.QrLoginSession`: `ID` is the primary key contributed by the
embedded `Base`. The Go field `User` is not a column: it is the association that
`Preload("User")` fills in, see `Preload`. -/
structure QrLoginSession where
  ID : String
  Token : String
  ExpiresAt : Nat
  IsAuthorized : Bool
  UserID : Option String
deriving DecidableEq, Repr

/-- The kinds of audit event this service records. -/
inductive AuditLogEvent where
  | QrLoginSignIn
deriving DecidableEq, Repr

/-- What `AuditLogService.Create` is asked to record. -/
structure AuditLog where
  Event : AuditLogEvent
  IpAddress : String
  UserAgent : String
  UserID : String
deriving DecidableEq, Repr

/-- The errors the service returns: `common.TokenInvalidOrExpiredError`, or any other
Go `error` (represented by its message). -/
inductive Error where
  | TokenInvalidOrExpiredError
  | other (msg : String)
deriving DecidableEq, Repr

/-- The database: the rows of the `qr_login_sessions` table in the order in which a
`SELECT` scans them, the `users` table and the audit log. The primary key of a session
row is its `ID`; the declaration of the table is outside the embedded files, and where a
statement needs the token to address a single row this is said by `TokenIsKey`. -/
structure DB where
  sessions : List QrLoginSession
  users : List User
  auditLogs : List AuditLog
deriving DecidableEq, Repr

/-- Everything one call of the service observes outside the database.
An `Option String` field set to `some msg` makes that statement fail with the
(non "record not found") error `msg`. -/
structure Env where
  /-- the value of `time.Now()` -/
  now : Nat
  /-- the result of `utils.GenerateRandomAlphanumericString(32)` -/
  randomToken : Except String String
  /-- the primary key given to a row inserted by `Create` -/
  newID : String
  /-- failure of the `INSERT` of `Create` -/
  createErr : Option String
  /-- failure of the `SELECT` of `First` -/
  findErr : Option String
  /-- failure of the `UPDATE` of `Save` -/
  saveErr : Option String
  /-- whether `auditLogService.Create` managed to write its row -/
  auditOk : Bool
  /-- failure of the `DELETE` of `Delete` -/
  deleteErr : Option String
  /-- failure of `tx.Commit()` -/
  commitErr : Option String
  /-- the method `jwtService.GenerateAccessToken` -/
  GenerateAccessToken : User → Except Error String

/-! ## The database statements issued through gorm -/

/-- The statement `First(&session, "token = ?", token)`: the first row whose token is
`token`; `none` is `gorm.ErrRecordNotFound`. -/
def First (db : DB) (token : String) : Option QrLoginSession :=
  db.sessions.find? (fun r => decide (r.Token = token))

/-- The row of the `users` table with primary key `userID`, if there is one. -/
def findUser (db : DB) (userID : String) : Option User :=
  db.users.find? (fun x => decide (x.ID = userID))

/-- The association loaded by `Preload("User")`: the user the row's `UserID` refers to,
the zero value when `UserID` is null or refers to no user. -/
def Preload (db : DB) (userID : Option String) : User :=
  match userID with
  | none => User.zero
  | some u => (findUser db u).getD User.zero

/-- The statement `Save(&session)` for a row read in the same transaction: an `UPDATE`
of all columns, addressed by primary key. -/
def Save (db : DB) (session : QrLoginSession) : DB :=
  { db with sessions := db.sessions.map (fun r => if r.ID = session.ID then session else r) }

/-- The statement `Delete(&session)`: a `DELETE` addressed by primary key. -/
def Delete (db : DB) (session : QrLoginSession) : DB :=
  { db with sessions := db.sessions.filter (fun r => decide (r.ID ≠ session.ID)) }

/-- The error of the `INSERT` issued by `Create(session)`, if any: the failure chosen by
the environment, or the violation of the primary key. -/
def createError (env : Env) (db : DB) (session : QrLoginSession) : Option String :=
  match env.createErr with
  | some e => some e
  | none =>
    if db.sessions.any (fun r => decide (r.ID = session.ID)) then
      some "UNIQUE constraint failed: qr_login_sessions.id"
    else none

/-- The statement `Create(session)` when it succeeds. Where the new row falls in the scan
order only matters when its token is already carried by another row. -/
def Create (db : DB) (session : QrLoginSession) : DB :=
  { db with sessions := db.sessions ++ [session] }

/-- The call `auditLogService.Create(ctx, event, ipAddress, userAgent, userID, data, tx)`:
it writes its row through the transaction `tx`; the service does not look at its
result. -/
def auditLogCreate (env : Env) (tx : DB) (event : AuditLogEvent)
    (ipAddress userAgent userID : String) : DB :=
  if env.auditOk then
    { tx with auditLogs := tx.auditLogs ++
        [{ Event := event, IpAddress := ipAddress, UserAgent := userAgent, UserID := userID }] }
  else tx

/-! ## The service -/

/-- `CreateSession`: returns `(token, ttlSeconds, err)` and the database afterwards. -/
def CreateSession (env : Env) (db : DB) : (String × Nat × Option Error) × DB :=
  match env.randomToken with
  | .error e => (("", 0, some (.other e)), db)
  | .ok token =>
    let session : QrLoginSession :=
      { ID := env.newID
        Token := token
        ExpiresAt := env.now + QrLoginSessionDuration
        IsAuthorized := false
        UserID := none }
    match createError env db session with
    | some e => (("", 0, some (.other e)), db)
    | none => ((token, QrLoginSessionDuration / Second, none), Create db session)

/-- `GetSessionStatus`: returns `(authorized, err)` and the database afterwards. -/
def GetSessionStatus (env : Env) (db : DB) (token : String) : (Bool × Option Error) × DB :=
  match env.findErr with
  | some e => ((false, some (.other e)), db)
  | none =>
    match First db token with
    | none => ((false, some .TokenInvalidOrExpiredError), db)
    | some session =>
      if env.now > session.ExpiresAt then
        ((false, some .TokenInvalidOrExpiredError), db)
      else
        ((session.IsAuthorized, none), db)

/-- `ConfirmSession`: returns `err` and the database afterwards. -/
def ConfirmSession (env : Env) (db : DB) (token userID ipAddress userAgent : String) :
    Option Error × DB :=
  match env.findErr with
  | some e => (some (.other ("error finding QR login session: " ++ e)), db)
  | none =>
    match First db token with
    | none => (some .TokenInvalidOrExpiredError, db)
    | some session =>
      if env.now > session.ExpiresAt then
        (some .TokenInvalidOrExpiredError, db)
      else if session.IsAuthorized then
        (some .TokenInvalidOrExpiredError, db)
      else
        let session := { session with UserID := some userID }
        let session := { session with IsAuthorized := true }
        match env.saveErr with
        | some e => (some (.other ("error saving QR login session: " ++ e)), db)
        | none =>
          let tx := Save db session
          let tx := auditLogCreate env tx .QrLoginSignIn ipAddress userAgent userID
          match env.commitErr with
          | some e => (some (.other e), db)
          | none => (none, tx)

/-- `ExchangeSession`: returns `(user, accessToken, err)` and the database afterwards. -/
def ExchangeSession (env : Env) (db : DB) (token : String) :
    (User × String × Option Error) × DB :=
  match env.findErr with
  | some e => ((User.zero, "", some (.other e)), db)
  | none =>
    match First db token with
    | none => ((User.zero, "", some .TokenInvalidOrExpiredError), db)
    | some session =>
      let user := Preload db session.UserID
      if env.now > session.ExpiresAt then
        ((User.zero, "", some .TokenInvalidOrExpiredError), db)
      else if !session.IsAuthorized || session.UserID.isNone then
        ((User.zero, "", some .TokenInvalidOrExpiredError), db)
      else
        match env.GenerateAccessToken user with
        | .error err => ((User.zero, "", some err), db)
        | .ok accessToken =>
          match env.deleteErr with
          | some e => ((User.zero, "", some (.other e)), db)
          | none =>
            let tx := Delete db session
            match env.commitErr with
            | some e => ((User.zero, "", some (.other e)), db)
            | none => ((user, accessToken, none), tx)

/-! ## Sequences of calls -/

/-- One call of the service, with its Go arguments. -/
inductive Call where
  | CreateSession
  | GetSessionStatus (token : String)
  | ConfirmSession (token userID ipAddress userAgent : String)
  | ExchangeSession (token : String)
deriving DecidableEq, Repr

/-- The database after one call made in environment `env`. -/
def step (env : Env) (db : DB) : Call → DB
  | .CreateSession => (CreateSession env db).2
  | .GetSessionStatus token => (GetSessionStatus env db token).2
  | .ConfirmSession token userID ipAddress userAgent =>
      (ConfirmSession env db token userID ipAddress userAgent).2
  | .ExchangeSession token => (ExchangeSession env db token).2

/-- The database after a sequence of calls, each made in its own environment. -/
def run (db : DB) : List (Env × Call) → DB
  | [] => db
  | (env, c) :: rest => run (step env db c) rest

/-- The store holding no session at all. -/
def emptyStore (users : List User) : DB :=
  { sessions := [], users := users, auditLogs := [] }

/-- The stores the service can produce, starting without any session. -/
def Reachable (db : DB) : Prop :=
  ∃ (users : List User) (trace : List (Env × Call)), run (emptyStore users) trace = db

/-! ## Predicates on stores -/

/-- At most one row of the store carries `token`. -/
def TokenIsKey (db : DB) (token : String) : Prop :=
  ∀ r₁ ∈ db.sessions, ∀ r₂ ∈ db.sessions, r₁.Token = token → r₂.Token = token → r₁ = r₂

/-- No call of the trace is a `CreateSession` whose generator draws `token`. -/
def NoCreateOf (token : String) (trace : List (Env × Call)) : Prop :=
  ∀ p ∈ trace, p.2 = Call.CreateSession → p.1.randomToken ≠ .ok token

/-- The primary key identifies rows, and a row that is not authorized has no user. -/
def StoreInv (db : DB) : Prop :=
  (∀ r₁ ∈ db.sessions, ∀ r₂ ∈ db.sessions, r₁.ID = r₂.ID → r₁ = r₂) ∧
  (∀ r ∈ db.sessions, r.IsAuthorized = false → r.UserID = none)

/-! ## Concrete data used by the worked examples -/

/-- An environment in which nothing outside the service fails; the JWT service signs
the user's id. -/
def okEnv (now : Nat) : Env :=
  { now := now
    randomToken := .ok "abc123"
    newID := "id-1"
    createErr := none
    findErr := none
    saveErr := none
    auditOk := true
    deleteErr := none
    commitErr := none
    GenerateAccessToken := fun u => .ok ("jwt:" ++ u.ID) }

/-- The user of the worked examples. -/
def user1 : User := { ID := "user-1", Username := "alice" }

/-- A database with no session, one user and an empty audit log. -/
def db0 : DB := emptyStore [user1]

/-- The session created at time 0 under token `abc123`, still pending. -/
def pendingSession : QrLoginSession :=
  { ID := "id-1", Token := "abc123", ExpiresAt := QrLoginSessionDuration,
    IsAuthorized := false, UserID := none }

/-- The same session once `user-1` has confirmed it. -/
def authorizedSession : QrLoginSession :=
  { pendingSession with UserID := some "user-1", IsAuthorized := true }

/-- The database holding the pending session. -/
def dbPending : DB := { db0 with sessions := [pendingSession] }

/-- The database holding the confirmed session. -/
def dbAuthorized : DB := { db0 with sessions := [authorizedSession] }

/-- The audit row of the confirmation by `user-1`. -/
def signInEvent : AuditLog :=
  { Event := AuditLogEvent.QrLoginSignIn, IpAddress := "10.0.0.7", UserAgent := "phone",
    UserID := "user-1" }

/-- The database after `user-1` confirmed the session and the audit row was written. -/
def dbConfirmed : DB := { dbAuthorized with auditLogs := [signInEvent] }

/-- An environment in which only the audit log cannot be written. -/
def auditDownEnv (now : Nat) : Env := { okEnv now with auditOk := false }

/-- An environment in which only `tx.Commit()` fails. -/
def commitDownEnv (now : Nat) : Env := { okEnv now with commitErr := some "database is locked" }

/-- An environment in which only the JWT service fails. -/
def issuerDownEnv (now : Nat) : Env :=
  { okEnv now with GenerateAccessToken := fun _ => .error (Error.other "no signing key") }

/-! ## Predicates and data for token uniqueness -/

/-- No two session rows carry the same token. -/
def TokensUnique (db : DB) : Prop :=
  db.sessions.Pairwise (fun a b => a.Token ≠ b.Token)

/-- Every `CreateSession` of the trace that inserts a row does so under a token that no row
of the store carries at that moment (the generator drew a new string, or the database
refused the insert). -/
def FreshCreates (db : DB) : List (Env × Call) → Prop
  | [] => True
  | (env, c) :: rest =>
    (c = Call.CreateSession → (CreateSession env db).1.2.2 = none →
      ∀ r ∈ db.sessions, r.Token ≠ (CreateSession env db).1.1) ∧
    FreshCreates (step env db c) rest

/-- An environment like `okEnv 1`, the inserted row getting the primary key `id-2`; the
generator returns `abc123` once more. -/
def secondCreateEnv : Env := { okEnv 1 with newID := "id-2" }

/-- The row inserted by `CreateSession` in `secondCreateEnv`. -/
def secondSession : QrLoginSession :=
  { ID := "id-2", Token := "abc123", ExpiresAt := 1 + QrLoginSessionDuration,
    IsAuthorized := false, UserID := none }

/-- The store after two `CreateSession` calls for which the generator returned `abc123`
both times: two pending rows under one token. -/
def dbDuplicate : DB := { db0 with sessions := [pendingSession, secondSession] }

/-- An environment whose generator draws the token `xyz789` for the row `id-2`. -/
def otherCreateEnv : Env := { okEnv 1 with newID := "id-2", randomToken := .ok "xyz789" }

/-! ## The refusal cases -/

/-- The cases in which `ConfirmSession` refuses a token: it has no row, its row is
expired, or its row is already authorized. -/
def ConfirmRefused (env : Env) (db : DB) (token : String) : Prop :=
  First db token = none ∨
  ∃ s, First db token = some s ∧ (env.now > s.ExpiresAt ∨ s.IsAuthorized = true)

/-- The cases in which `ExchangeSession` refuses a token: it has no row, its row is
expired, its row is pending, or its row is authorized with a null `UserID`. -/
def ExchangeRefused (env : Env) (db : DB) (token : String) : Prop :=
  First db token = none ∨
  ∃ s, First db token = some s ∧
    (env.now > s.ExpiresAt ∨ s.IsAuthorized = false ∨ s.UserID = none)

/-- The primary key identifies the session rows. -/
def PrimaryKey (db : DB) : Prop :=
  ∀ r₁ ∈ db.sessions, ∀ r₂ ∈ db.sessions, r₁.ID = r₂.ID → r₁ = r₂

/-- An environment in which only the `DELETE` fails. -/
def deleteDownEnv (now : Nat) : Env := { okEnv now with deleteErr := some "disk I/O error" }

/-- A second pending session, under the token `xyz789`. -/
def otherSession : QrLoginSession :=
  { ID := "id-2", Token := "xyz789", ExpiresAt := 1 + QrLoginSessionDuration,
    IsAuthorized := false, UserID := none }

/-- The store holding the confirmed session `abc123` and the pending session `xyz789`. -/
def dbTwo : DB := { db0 with sessions := [authorizedSession, otherSession] }

end QrLogin

namespace QrLogin

/-! ## Lookup lemmas -/

theorem First_eq_none_iff (db : DB) (token : String) :
    First db token = none ↔ ∀ r ∈ db.sessions, r.Token ≠ token := by
  simp [First, List.find?_eq_none]

theorem First_mem {db : DB} {token : String} {s : QrLoginSession}
    (h : First db token = some s) : s ∈ db.sessions ∧ s.Token = token := by
  unfold First at h
  refine ⟨List.mem_of_find?_eq_some h, ?_⟩
  simpa using List.find?_some h

theorem find_map_update (l : List QrLoginSession) (token : String) (s s' : QrLoginSession)
    (h : l.find? (fun r => decide (r.Token = token)) = some s)
    (htok : s'.Token = token) (hid : s'.ID = s.ID) :
    (l.map (fun r => if r.ID = s'.ID then s' else r)).find?
      (fun r => decide (r.Token = token)) = some s' := by
  induction l with
  | nil => simp at h
  | cons r rs ih =>
    by_cases hr : r.Token = token
    · have hrs : r = s := by simpa [List.find?_cons, hr] using h
      subst hrs
      simp [List.find?_cons, hid, htok]
    · have hrest : rs.find? (fun r => decide (r.Token = token)) = some s := by
        simpa [List.find?_cons, hr] using h
      by_cases hrid : r.ID = s'.ID
      · simp [List.find?_cons, hrid, htok]
      · simp [List.find?_cons, hrid, hr, ih hrest]

theorem First_Save {db : DB} {token : String} {s s' : QrLoginSession}
    (h : First db token = some s) (htok : s'.Token = token) (hid : s'.ID = s.ID) :
    First (Save db s') token = some s' := by
  unfold First at h ⊢
  exact find_map_update db.sessions token s s' h htok hid

theorem First_auditLogCreate (env : Env) (db : DB) (ev : AuditLogEvent) (ip ua u token : String) :
    First (auditLogCreate env db ev ip ua u) token = First db token := by
  unfold auditLogCreate First
  split <;> rfl

theorem sessions_auditLogCreate (env : Env) (db : DB) (ev : AuditLogEvent) (ip ua u : String) :
    (auditLogCreate env db ev ip ua u).sessions = db.sessions := by
  unfold auditLogCreate
  split <;> rfl

theorem users_auditLogCreate (env : Env) (db : DB) (ev : AuditLogEvent) (ip ua u : String) :
    (auditLogCreate env db ev ip ua u).users = db.users := by
  unfold auditLogCreate
  split <;> rfl

theorem Preload_congr {db db' : DB} (h : db'.users = db.users) (uid : Option String) :
    Preload db' uid = Preload db uid := by
  unfold Preload findUser
  rw [h]

/-! ## Evaluation lemmas: the paths through each operation -/

theorem GetSessionStatus_db (env : Env) (db : DB) (token : String) :
    (GetSessionStatus env db token).2 = db := by
  unfold GetSessionStatus
  repeat' split
  all_goals rfl

theorem GetSessionStatus_found {env : Env} {db : DB} {token : String} {s : QrLoginSession}
    (henv : env.findErr = none) (h : First db token = some s) :
    (GetSessionStatus env db token).1 =
      if env.now > s.ExpiresAt then (false, some Error.TokenInvalidOrExpiredError)
      else (s.IsAuthorized, none) := by
  unfold GetSessionStatus
  simp only [henv, h]
  split <;> rfl

theorem ConfirmSession_notFound {env : Env} {db : DB} {token : String}
    (henv : env.findErr = none) (h : First db token = none) (u ip ua : String) :
    ConfirmSession env db token u ip ua = (some Error.TokenInvalidOrExpiredError, db) := by
  unfold ConfirmSession
  simp only [henv, h]

theorem ConfirmSession_rejected {env : Env} {db : DB} {token : String} {s : QrLoginSession}
    (henv : env.findErr = none) (h : First db token = some s)
    (hs : env.now > s.ExpiresAt ∨ s.IsAuthorized = true) (u ip ua : String) :
    ConfirmSession env db token u ip ua = (some Error.TokenInvalidOrExpiredError, db) := by
  unfold ConfirmSession
  simp only [henv, h]
  rcases hs with hs | hs
  · simp [hs]
  · simp [hs]

theorem ConfirmSession_ok {env : Env} {db : DB} {token : String} {s : QrLoginSession}
    (hfind : env.findErr = none) (hsave : env.saveErr = none) (hcommit : env.commitErr = none)
    (h : First db token = some s) (hlive : env.now ≤ s.ExpiresAt)
    (hpending : s.IsAuthorized = false) (u ip ua : String) :
    ConfirmSession env db token u ip ua =
      (none, auditLogCreate env
        (Save db { s with UserID := some u, IsAuthorized := true })
        AuditLogEvent.QrLoginSignIn ip ua u) := by
  unfold ConfirmSession
  simp only [hfind, hsave, hcommit, h]
  simp [Nat.not_lt.mpr hlive, hpending]

/-- Every run of `ConfirmSession` either leaves the database as it was, or returns no
error after updating a pending, live row. -/
theorem ConfirmSession_cases (env : Env) (db : DB) (token u ip ua : String) :
    ((ConfirmSession env db token u ip ua).1 ≠ none ∧
        (ConfirmSession env db token u ip ua).2 = db) ∨
    ∃ s, First db token = some s ∧ s.IsAuthorized = false ∧ env.now ≤ s.ExpiresAt ∧
      env.findErr = none ∧ env.saveErr = none ∧ env.commitErr = none ∧
      ConfirmSession env db token u ip ua =
        (none, auditLogCreate env
          (Save db { s with UserID := some u, IsAuthorized := true })
          AuditLogEvent.QrLoginSignIn ip ua u) := by
  cases hfind : env.findErr with
  | some e => left; simp [ConfirmSession, hfind]
  | none =>
    cases h : First db token with
    | none => left; simp [ConfirmSession_notFound hfind h]
    | some s =>
      by_cases hexp : env.now > s.ExpiresAt
      · left; simp [ConfirmSession_rejected hfind h (Or.inl hexp)]
      · cases hauth : s.IsAuthorized with
        | true => left; simp [ConfirmSession_rejected hfind h (Or.inr hauth)]
        | false =>
          cases hsave : env.saveErr with
          | some e => left; simp [ConfirmSession, hfind, h, hexp, hauth, hsave]
          | none =>
            cases hcommit : env.commitErr with
            | some e => left; simp [ConfirmSession, hfind, h, hexp, hauth, hsave, hcommit]
            | none =>
              right
              exact ⟨s, rfl, hauth, Nat.not_lt.mp hexp, rfl, rfl, rfl,
                ConfirmSession_ok hfind hsave hcommit h (Nat.not_lt.mp hexp) hauth u ip ua⟩

theorem ExchangeSession_notFound {env : Env} {db : DB} {token : String}
    (henv : env.findErr = none) (h : First db token = none) :
    ExchangeSession env db token =
      ((User.zero, "", some Error.TokenInvalidOrExpiredError), db) := by
  unfold ExchangeSession
  simp only [henv, h]

theorem ExchangeSession_rejected {env : Env} {db : DB} {token : String} {s : QrLoginSession}
    (henv : env.findErr = none) (h : First db token = some s)
    (hs : env.now > s.ExpiresAt ∨ s.IsAuthorized = false ∨ s.UserID = none) :
    ExchangeSession env db token =
      ((User.zero, "", some Error.TokenInvalidOrExpiredError), db) := by
  unfold ExchangeSession
  simp only [henv, h]
  rcases hs with hs | hs | hs
  · simp [hs]
  · simp [hs]
  · simp [hs]

theorem ExchangeSession_issued {env : Env} {db : DB} {token : String} {s : QrLoginSession}
    {u : String} (hfind : env.findErr = none) (h : First db token = some s)
    (hlive : env.now ≤ s.ExpiresAt) (hauth : s.IsAuthorized = true) (hu : s.UserID = some u) :
    ExchangeSession env db token =
      match env.GenerateAccessToken (Preload db (some u)) with
      | .error err => ((User.zero, "", some err), db)
      | .ok accessToken =>
        match env.deleteErr with
        | some e => ((User.zero, "", some (Error.other e)), db)
        | none =>
          match env.commitErr with
          | some e => ((User.zero, "", some (Error.other e)), db)
          | none => ((Preload db (some u), accessToken, none), Delete db s) := by
  unfold ExchangeSession
  simp only [hfind, h]
  simp [Nat.not_lt.mpr hlive, hauth, hu]

/-- Every run of `ExchangeSession` either leaves the database as it was and returns an
error, or returns no error after deleting an authorized, live row. -/
theorem ExchangeSession_cases (env : Env) (db : DB) (token : String) :
    ((ExchangeSession env db token).1.2.2 ≠ none ∧ (ExchangeSession env db token).2 = db) ∨
    ∃ s u cred, First db token = some s ∧ s.IsAuthorized = true ∧ s.UserID = some u ∧
      env.now ≤ s.ExpiresAt ∧ env.GenerateAccessToken (Preload db (some u)) = .ok cred ∧
      ExchangeSession env db token = ((Preload db (some u), cred, none), Delete db s) := by
  cases hfind : env.findErr with
  | some e => left; simp [ExchangeSession, hfind]
  | none =>
    cases h : First db token with
    | none => left; simp [ExchangeSession_notFound hfind h]
    | some s =>
      by_cases hexp : env.now > s.ExpiresAt
      · left; simp [ExchangeSession_rejected hfind h (Or.inl hexp)]
      · cases hauth : s.IsAuthorized with
        | false => left; simp [ExchangeSession_rejected hfind h (Or.inr (Or.inl hauth))]
        | true =>
          cases hu : s.UserID with
          | none => left; simp [ExchangeSession_rejected hfind h (Or.inr (Or.inr hu))]
          | some u =>
            have hev := ExchangeSession_issued hfind h (Nat.not_lt.mp hexp) hauth hu
            cases hgen : env.GenerateAccessToken (Preload db (some u)) with
            | error err =>
              left
              rw [hev]
              simp [hgen]
            | ok cred =>
              cases hdel : env.deleteErr with
              | some e => left; rw [hev]; simp [hgen, hdel]
              | none =>
                cases hcommit : env.commitErr with
                | some e => left; rw [hev]; simp [hgen, hdel, hcommit]
                | none =>
                  right
                  refine ⟨s, u, cred, rfl, hauth, hu, Nat.not_lt.mp hexp, hgen, ?_⟩
                  rw [hev]; simp [hgen, hdel, hcommit]

/-- Every run of `CreateSession` either leaves the database as it was and returns an
error, or appends one pending row under a primary key that was free. -/
theorem CreateSession_cases (env : Env) (db : DB) :
    ((CreateSession env db).1.2.2 ≠ none ∧ (CreateSession env db).2 = db) ∨
    ∃ token, env.randomToken = .ok token ∧ env.createErr = none ∧
      (∀ r ∈ db.sessions, r.ID ≠ env.newID) ∧
      CreateSession env db =
        ((token, QrLoginSessionDuration / Second, none),
          Create db { ID := env.newID, Token := token,
                      ExpiresAt := env.now + QrLoginSessionDuration,
                      IsAuthorized := false, UserID := none }) := by
  cases hrand : env.randomToken with
  | error e => left; simp [CreateSession, hrand]
  | ok token =>
    cases hcreate : env.createErr with
    | some e => left; simp [CreateSession, hrand, createError, hcreate]
    | none =>
      by_cases hpk : db.sessions.any (fun r => decide (r.ID = env.newID)) = true
      · left; simp [CreateSession, hrand, createError, hcreate, hpk]
      · right
        refine ⟨token, rfl, rfl, ?_, ?_⟩
        · intro r hr hid
          exact hpk (List.any_eq_true.mpr ⟨r, hr, by simpa using hid⟩)
        · simp [CreateSession, hrand, createError, hcreate, hpk]

/-! ## Rows carrying a given token -/

theorem Delete_no_row {db : DB} {token : String} {s : QrLoginSession}
    (hkey : TokenIsKey db token) (h : First db token = some s) :
    ∀ r ∈ (Delete db s).sessions, r.Token ≠ token := by
  intro r hr htok
  have hmem : r ∈ db.sessions ∧ r.ID ≠ s.ID := by
    simpa [Delete, List.mem_filter] using hr
  have hs := First_mem h
  exact hmem.2 (by rw [hkey r hmem.1 s hs.1 htok hs.2])

theorem step_no_row {env : Env} {db : DB} {token : String} {c : Call}
    (hc : c = Call.CreateSession → env.randomToken ≠ .ok token)
    (h : ∀ r ∈ db.sessions, r.Token ≠ token) :
    ∀ r ∈ (step env db c).sessions, r.Token ≠ token := by
  cases c with
  | CreateSession =>
    rcases CreateSession_cases env db with ⟨_, hdb⟩ | ⟨t, ht, _, _, hev⟩
    · simpa [step, hdb] using h
    · intro r hr
      simp only [step, hev, Create, List.mem_append, List.mem_singleton] at hr
      rcases hr with hr | hr
      · exact h r hr
      · subst hr
        intro heq
        exact hc rfl (by rw [ht]; exact congrArg _ heq)
  | GetSessionStatus t => simpa [step, GetSessionStatus_db] using h
  | ConfirmSession t u ip ua =>
    rcases ConfirmSession_cases env db t u ip ua with ⟨_, hdb⟩ | ⟨s, hs, _, _, _, _, _, hev⟩
    · simpa [step, hdb] using h
    · intro r hr
      simp only [step, hev, sessions_auditLogCreate, Save, List.mem_map] at hr
      obtain ⟨r₀, hr₀, hrr⟩ := hr
      split at hrr
      · subst hrr
        exact h s (First_mem hs).1
      · subst hrr
        exact h r₀ hr₀
  | ExchangeSession t =>
    rcases ExchangeSession_cases env db t with ⟨_, hdb⟩ | ⟨s, u, cred, _, _, _, _, _, hev⟩
    · simpa [step, hdb] using h
    · intro r hr
      simp only [step, hev, Delete, List.mem_filter] at hr
      exact h r hr.1

theorem run_no_row {token : String} (trace : List (Env × Call)) :
    ∀ db : DB, NoCreateOf token trace → (∀ r ∈ db.sessions, r.Token ≠ token) →
      ∀ r ∈ (run db trace).sessions, r.Token ≠ token := by
  induction trace with
  | nil => intro db _ h; simpa [run] using h
  | cons p rest ih =>
    intro db hno h
    obtain ⟨env, c⟩ := p
    simp only [run]
    apply ih
    · intro q hq
      exact hno q (List.mem_cons_of_mem _ hq)
    · exact step_no_row (hno (env, c) (List.mem_cons_self _ _)) h

/-! ## C1 -/

/-- C1, the claim as stated fails: in the store reached by two `CreateSession` calls that
both drew `abc123`, after a confirmation the exchange of `abc123` succeeds and deletes
the row it read, yet a row with the token `abc123` is still in the store, and after one
more `ConfirmSession` a later `ExchangeSession` on `abc123` succeeds again. -/
theorem exchange_twice_under_duplicate_token :
    run (emptyStore [user1])
        [(okEnv 0, Call.CreateSession), (secondCreateEnv, Call.CreateSession)] = dbDuplicate ∧
    (ConfirmSession (okEnv 2) dbDuplicate "abc123" "user-1" "10.0.0.7" "phone").1 = none ∧
    (ExchangeSession (okEnv 10)
      (ConfirmSession (okEnv 2) dbDuplicate "abc123" "user-1" "10.0.0.7" "phone").2
      "abc123").1 = (user1, "jwt:user-1", none) ∧
    secondSession.Token = "abc123" ∧
    secondSession ∈ (ExchangeSession (okEnv 10)
      (ConfirmSession (okEnv 2) dbDuplicate "abc123" "user-1" "10.0.0.7" "phone").2
      "abc123").2.sessions ∧
    (ExchangeSession (okEnv 12)
      (ConfirmSession (okEnv 11)
        (ExchangeSession (okEnv 10)
          (ConfirmSession (okEnv 2) dbDuplicate "abc123" "user-1" "10.0.0.7" "phone").2
          "abc123").2
        "abc123" "user-1" "10.0.0.7" "phone").2
      "abc123").1 = (user1, "jwt:user-1", none) := by
  decide

/-- C1, amended. Single-use exchange: in a store where at most one row carries the
token, when `ExchangeSession` succeeds on it (which it only does for a confirmed,
unexpired session) no row with that token is left, and every later `ExchangeSession` on
that token fails with `TokenInvalidOrExpiredError`, at whatever time and after whatever
other calls (short of a `CreateSession` that draws the very same token again), the
lookup being answered by the database. -/
theorem exchange_is_single_use (env : Env) (db : DB) (token : String)
    (hkey : TokenIsKey db token)
    (hok : (ExchangeSession env db token).1.2.2 = none) :
    (∀ r ∈ (ExchangeSession env db token).2.sessions, r.Token ≠ token) ∧
    ∀ trace : List (Env × Call), NoCreateOf token trace →
      ∀ env' : Env, env'.findErr = none →
        ExchangeSession env' (run (ExchangeSession env db token).2 trace) token =
          ((User.zero, "", some Error.TokenInvalidOrExpiredError),
            run (ExchangeSession env db token).2 trace) := by
  have hgone : ∀ r ∈ (ExchangeSession env db token).2.sessions, r.Token ≠ token := by
    rcases ExchangeSession_cases env db token with ⟨herr, _⟩ | ⟨s, u, cred, hs, _, _, _, _, hev⟩
    · exact absurd hok herr
    · rw [hev]
      exact Delete_no_row hkey hs
  refine ⟨hgone, ?_⟩
  intro trace hno env' henv'
  exact ExchangeSession_notFound henv'
    ((First_eq_none_iff _ _).mpr (run_no_row trace _ hno hgone))

/-- Witness for amended C1: the confirmed session `abc123` is exchanged at time 10; after a
status poll, a further exchange at time 20 is refused. -/
theorem exchange_is_single_use_witness :
    TokenIsKey dbAuthorized "abc123" ∧
    (ExchangeSession (okEnv 10) dbAuthorized "abc123").1.2.2 = none ∧
    ExchangeSession (okEnv 20)
        (run (ExchangeSession (okEnv 10) dbAuthorized "abc123").2
          [(okEnv 15, Call.GetSessionStatus "abc123")]) "abc123" =
      ((User.zero, "", some Error.TokenInvalidOrExpiredError),
        run (ExchangeSession (okEnv 10) dbAuthorized "abc123").2
          [(okEnv 15, Call.GetSessionStatus "abc123")]) :=
  have hkey : TokenIsKey dbAuthorized "abc123" := by
    intro r₁ h₁ r₂ h₂ _ _
    simp only [dbAuthorized, List.mem_singleton] at h₁ h₂
    rw [h₁, h₂]
  have hok : (ExchangeSession (okEnv 10) dbAuthorized "abc123").1.2.2 = none := by decide
  ⟨hkey, hok,
    (exchange_is_single_use (okEnv 10) dbAuthorized "abc123" hkey hok).2
      [(okEnv 15, Call.GetSessionStatus "abc123")]
      (by intro p hp hc; simp only [List.mem_singleton] at hp; subst hp; simp at hc)
      (okEnv 20) rfl⟩

/-! ## C2 -/

/-- C2. Exactly-once confirmation, sequential form: on a pending, unexpired session the
first `ConfirmSession` (any caller `u₁`) succeeds, the next `ConfirmSession` on the
same token (any caller `u₂`, any time) fails with `TokenInvalidOrExpiredError` and
changes nothing, and the stored row keeps the first caller's id. The two callers are
arbitrary, so the statement covers both orders. -/
theorem confirm_exactly_once (env₁ env₂ : Env) (db : DB) (token : String)
    (s : QrLoginSession) (u₁ ip₁ ua₁ u₂ ip₂ ua₂ : String)
    (h : First db token = some s) (hpending : s.IsAuthorized = false)
    (hlive : env₁.now ≤ s.ExpiresAt)
    (hfind₁ : env₁.findErr = none) (hsave₁ : env₁.saveErr = none)
    (hcommit₁ : env₁.commitErr = none) (hfind₂ : env₂.findErr = none) :
    (ConfirmSession env₁ db token u₁ ip₁ ua₁).1 = none ∧
    ConfirmSession env₂ (ConfirmSession env₁ db token u₁ ip₁ ua₁).2 token u₂ ip₂ ua₂ =
      (some Error.TokenInvalidOrExpiredError, (ConfirmSession env₁ db token u₁ ip₁ ua₁).2) ∧
    First (ConfirmSession env₂ (ConfirmSession env₁ db token u₁ ip₁ ua₁).2 token u₂ ip₂ ua₂).2
        token = some { s with UserID := some u₁, IsAuthorized := true } := by
  have hev := ConfirmSession_ok hfind₁ hsave₁ hcommit₁ h hlive hpending u₁ ip₁ ua₁
  have hfirst : First (ConfirmSession env₁ db token u₁ ip₁ ua₁).2 token =
      some { s with UserID := some u₁, IsAuthorized := true } := by
    rw [hev]
    simp only [First_auditLogCreate]
    exact First_Save h (First_mem h).2 rfl
  have hsecond := ConfirmSession_rejected hfind₂ hfirst (Or.inr rfl) u₂ ip₂ ua₂
  refine ⟨by rw [hev], hsecond, ?_⟩
  rw [hsecond]
  exact hfirst

/-- Witness for C2: `user-1` confirms the pending session at time 10, `user-2` tries at
time 20. -/
theorem confirm_exactly_once_witness :
    (ConfirmSession (okEnv 10) dbPending "abc123" "user-1" "10.0.0.7" "phone").1 = none ∧
    ConfirmSession (okEnv 20)
        (ConfirmSession (okEnv 10) dbPending "abc123" "user-1" "10.0.0.7" "phone").2
        "abc123" "user-2" "10.0.0.8" "tablet" =
      (some Error.TokenInvalidOrExpiredError,
        (ConfirmSession (okEnv 10) dbPending "abc123" "user-1" "10.0.0.7" "phone").2) ∧
    First (ConfirmSession (okEnv 20)
        (ConfirmSession (okEnv 10) dbPending "abc123" "user-1" "10.0.0.7" "phone").2
        "abc123" "user-2" "10.0.0.8" "tablet").2 "abc123" =
      some { pendingSession with UserID := some "user-1", IsAuthorized := true } :=
  confirm_exactly_once (okEnv 10) (okEnv 20) dbPending "abc123" pendingSession
    "user-1" "10.0.0.7" "phone" "user-2" "10.0.0.8" "tablet"
    (by decide) rfl (by decide) rfl rfl rfl rfl

/-! ## C3 -/

/-- C3. A token that has no row in the store is refused by `GetSessionStatus`,
`ConfirmSession` and `ExchangeSession` alike with `TokenInvalidOrExpiredError`
(the lookup itself being answered by the database). -/
theorem unknown_token_is_rejected (env : Env) (db : DB) (token u ip ua : String)
    (hnone : ∀ r ∈ db.sessions, r.Token ≠ token) (henv : env.findErr = none) :
    (GetSessionStatus env db token).1 = (false, some Error.TokenInvalidOrExpiredError) ∧
    (ConfirmSession env db token u ip ua).1 = some Error.TokenInvalidOrExpiredError ∧
    (ExchangeSession env db token).1 =
      (User.zero, "", some Error.TokenInvalidOrExpiredError) := by
  have h : First db token = none := (First_eq_none_iff db token).mpr hnone
  refine ⟨?_, ?_, ?_⟩
  · simp [GetSessionStatus, henv, h]
  · rw [ConfirmSession_notFound henv h]
  · rw [ExchangeSession_notFound henv h]

/-- Witness for C3: the token `nope` in the store that only holds `abc123`. -/
theorem unknown_token_is_rejected_witness :
    (∀ r ∈ dbAuthorized.sessions, r.Token ≠ "nope") ∧
    (GetSessionStatus (okEnv 10) dbAuthorized "nope").1 =
      (false, some Error.TokenInvalidOrExpiredError) ∧
    (ConfirmSession (okEnv 10) dbAuthorized "nope" "user-1" "10.0.0.7" "phone").1 =
      some Error.TokenInvalidOrExpiredError ∧
    (ExchangeSession (okEnv 10) dbAuthorized "nope").1 =
      (User.zero, "", some Error.TokenInvalidOrExpiredError) :=
  have hnone : ∀ r ∈ dbAuthorized.sessions, r.Token ≠ "nope" := by decide
  ⟨hnone, unknown_token_is_rejected (okEnv 10) dbAuthorized "nope" "user-1" "10.0.0.7" "phone"
    hnone rfl⟩

/-! ## C4 -/

/-- C4. Expiry: once `now` is strictly after the `ExpiresAt` of the session a token
addresses, `GetSessionStatus`, `ConfirmSession` and `ExchangeSession` all fail with
`TokenInvalidOrExpiredError`, whatever the session's `IsAuthorized` and `UserID`. -/
theorem expired_session_is_rejected (env : Env) (db : DB) (token u ip ua : String)
    (s : QrLoginSession) (h : First db token = some s) (hexp : env.now > s.ExpiresAt)
    (henv : env.findErr = none) :
    (GetSessionStatus env db token).1 = (false, some Error.TokenInvalidOrExpiredError) ∧
    (ConfirmSession env db token u ip ua).1 = some Error.TokenInvalidOrExpiredError ∧
    (ExchangeSession env db token).1 =
      (User.zero, "", some Error.TokenInvalidOrExpiredError) := by
  refine ⟨?_, ?_, ?_⟩
  · rw [GetSessionStatus_found henv h, if_pos hexp]
  · rw [ConfirmSession_rejected henv h (Or.inl hexp)]
  · rw [ExchangeSession_rejected henv h (Or.inl hexp)]

/-- Witness for C4: the confirmed session, one nanosecond after its expiry. -/
theorem expired_session_is_rejected_witness :
    First dbAuthorized "abc123" = some authorizedSession ∧
    (okEnv (QrLoginSessionDuration + 1)).now > authorizedSession.ExpiresAt ∧
    (GetSessionStatus (okEnv (QrLoginSessionDuration + 1)) dbAuthorized "abc123").1 =
      (false, some Error.TokenInvalidOrExpiredError) ∧
    (ConfirmSession (okEnv (QrLoginSessionDuration + 1)) dbAuthorized "abc123"
      "user-1" "10.0.0.7" "phone").1 = some Error.TokenInvalidOrExpiredError ∧
    (ExchangeSession (okEnv (QrLoginSessionDuration + 1)) dbAuthorized "abc123").1 =
      (User.zero, "", some Error.TokenInvalidOrExpiredError) :=
  have h : First dbAuthorized "abc123" = some authorizedSession := by decide
  have hexp : (okEnv (QrLoginSessionDuration + 1)).now > authorizedSession.ExpiresAt := by
    decide
  ⟨h, hexp, expired_session_is_rejected (okEnv (QrLoginSessionDuration + 1)) dbAuthorized
    "abc123" "user-1" "10.0.0.7" "phone" authorizedSession h hexp rfl⟩

/-! ## C5 -/

theorem findUser_id {db : DB} {u : String} {usr : User} (h : findUser db u = some usr) :
    usr.ID = u := by
  unfold findUser at h
  simpa using List.find?_some h

/-- C5. Exchange returns the identity bound by confirm: if `ConfirmSession token u`
succeeded on the session the token addresses and `u` is an existing user, then
`ExchangeSession token` within the TTL (its database statements succeeding) returns the
user whose id is `u` together with exactly the access token the JWT service produced
for that user; if the JWT service fails, its error is returned instead. -/
theorem exchange_returns_confirmed_identity (env₁ env₂ : Env) (db : DB) (token : String)
    (s : QrLoginSession) (u ip ua : String) (usr : User)
    (h : First db token = some s) (husr : findUser db u = some usr)
    (hconfirm : (ConfirmSession env₁ db token u ip ua).1 = none)
    (hlive : env₂.now ≤ s.ExpiresAt) (hfind : env₂.findErr = none)
    (hdelete : env₂.deleteErr = none) (hcommit : env₂.commitErr = none) :
    usr.ID = u ∧
    (ExchangeSession env₂ (ConfirmSession env₁ db token u ip ua).2 token).1 =
      match env₂.GenerateAccessToken usr with
      | .ok cred => (usr, cred, none)
      | .error err => (User.zero, "", some err) := by
  refine ⟨findUser_id husr, ?_⟩
  rcases ConfirmSession_cases env₁ db token u ip ua with ⟨herr, _⟩ | ⟨s', hs', _, _, _, _, _, hev⟩
  · exact absurd hconfirm herr
  · have hss : s' = s := by rw [h] at hs'; exact (Option.some.inj hs').symm
    subst hss
    have hfirst : First (ConfirmSession env₁ db token u ip ua).2 token =
        some { s' with UserID := some u, IsAuthorized := true } := by
      rw [hev]
      simp only [First_auditLogCreate]
      exact First_Save h (First_mem h).2 rfl
    have hpre : Preload (ConfirmSession env₁ db token u ip ua).2 (some u) = usr := by
      rw [hev]
      simp only [Preload, findUser, users_auditLogCreate, Save]
      rw [show db.users.find? (fun x => decide (x.ID = u)) = some usr from husr]
      rfl
    rw [ExchangeSession_issued hfind hfirst hlive rfl rfl, hpre]
    cases hgen : env₂.GenerateAccessToken usr with
    | error err => rfl
    | ok cred => simp [hdelete, hcommit]

/-- Witness for C5, the scenario of the specification step by step: `init` yields token
`abc123` with ttl 300, `status` is false, `confirm` by `user-1` succeeds, `status` is
true, `exchange` returns `user-1` with the issued access token, a second `exchange`
fails with `TokenInvalidOrExpiredError`. -/
theorem exchange_returns_confirmed_identity_witness :
    CreateSession (okEnv 0) db0 = (("abc123", 300, none), dbPending) ∧
    GetSessionStatus (okEnv 1) dbPending "abc123" = ((false, none), dbPending) ∧
    ConfirmSession (okEnv 2) dbPending "abc123" "user-1" "10.0.0.7" "phone" =
      (none, dbConfirmed) ∧
    GetSessionStatus (okEnv 3) dbConfirmed "abc123" = ((true, none), dbConfirmed) ∧
    (user1.ID = "user-1" ∧
      (ExchangeSession (okEnv 4)
        (ConfirmSession (okEnv 2) dbPending "abc123" "user-1" "10.0.0.7" "phone").2
        "abc123").1 = (user1, "jwt:user-1", none)) ∧
    (ExchangeSession (okEnv 5) (ExchangeSession (okEnv 4) dbConfirmed "abc123").2 "abc123").1 =
      (User.zero, "", some Error.TokenInvalidOrExpiredError) :=
  ⟨by decide, by decide, by decide, by decide,
    exchange_returns_confirmed_identity (okEnv 2) (okEnv 4) dbPending "abc123" pendingSession
      "user-1" "10.0.0.7" "phone" user1 (by decide) (by decide) (by decide) (by decide)
      rfl rfl rfl,
    by decide⟩

/-! ## C6 -/

/-- C6, the claim as stated fails: with the audit log unavailable, `ConfirmSession`
still returns no error and commits the authorization; no audit event is recorded. -/
theorem confirm_commits_without_audit_event :
    (auditDownEnv 10).auditOk = false ∧
    ConfirmSession (auditDownEnv 10) dbPending "abc123" "user-1" "10.0.0.7" "phone" =
      (none, dbAuthorized) ∧
    First dbAuthorized "abc123" = some authorizedSession ∧
    authorizedSession.IsAuthorized = true ∧
    authorizedSession.UserID = some "user-1" ∧
    dbAuthorized.auditLogs = [] := by
  decide

/-- C6, amended. `ConfirmSession` is atomic over the locked read, the save and the
commit: if one of them fails an error is returned, and whenever an error is returned the
database is exactly as it was. The result of recording the audit event is not looked
at: a successful `ConfirmSession` has recorded its event (identity, IP, user agent) in
the same commit when the audit write succeeded, and has committed the authorization
without any audit row when it did not; the error returned and the session rows
afterwards are the same whether or not the audit write succeeds. -/
theorem confirm_is_atomic (env : Env) (db : DB) (token u ip ua : String) :
    ((env.findErr ≠ none ∨ env.saveErr ≠ none ∨ env.commitErr ≠ none) →
      (ConfirmSession env db token u ip ua).1 ≠ none) ∧
    ((ConfirmSession env db token u ip ua).1 ≠ none →
      (ConfirmSession env db token u ip ua).2 = db) ∧
    ((ConfirmSession env db token u ip ua).1 = none → env.auditOk = true →
      (ConfirmSession env db token u ip ua).2.auditLogs = db.auditLogs ++
        [{ Event := AuditLogEvent.QrLoginSignIn, IpAddress := ip, UserAgent := ua,
           UserID := u }]) ∧
    ((ConfirmSession env db token u ip ua).1 = none → env.auditOk = false →
      (ConfirmSession env db token u ip ua).2.auditLogs = db.auditLogs ∧
      ∃ s, First db token = some s ∧
        First (ConfirmSession env db token u ip ua).2 token =
          some { s with UserID := some u, IsAuthorized := true }) ∧
    (∀ b : Bool,
      (ConfirmSession { env with auditOk := b } db token u ip ua).1 =
        (ConfirmSession env db token u ip ua).1 ∧
      (ConfirmSession { env with auditOk := b } db token u ip ua).2.sessions =
        (ConfirmSession env db token u ip ua).2.sessions) := by
  have hindep : ∀ b : Bool,
      (ConfirmSession { env with auditOk := b } db token u ip ua).1 =
        (ConfirmSession env db token u ip ua).1 ∧
      (ConfirmSession { env with auditOk := b } db token u ip ua).2.sessions =
        (ConfirmSession env db token u ip ua).2.sessions := by
    intro b
    unfold ConfirmSession
    dsimp only
    repeat' split
    all_goals simp [sessions_auditLogCreate]
  rcases ConfirmSession_cases env db token u ip ua with
    ⟨herr, hdb⟩ | ⟨s, hs, _, _, hfind, hsave, hcommit, hev⟩
  · exact ⟨fun _ => herr, fun _ => hdb, fun h => absurd h herr, fun h => absurd h herr,
      hindep⟩
  · refine ⟨?_, ?_, ?_, ?_, hindep⟩
    · rintro (h | h | h)
      · exact absurd hfind h
      · exact absurd hsave h
      · exact absurd hcommit h
    · intro h
      rw [hev] at h
      exact absurd rfl h
    · intro _ haudit
      rw [hev]
      simp [auditLogCreate, haudit, Save]
    · intro _ haudit
      rw [hev]
      refine ⟨by simp [auditLogCreate, haudit, Save], s, hs, ?_⟩
      simp only [First_auditLogCreate]
      exact First_Save hs (First_mem hs).2 rfl

/-- Witness for amended C6: a failing commit leaves the pending session untouched, and a
successful confirmation in a healthy environment has written the audit row. -/
theorem confirm_is_atomic_witness :
    (commitDownEnv 10).commitErr ≠ none ∧
    (ConfirmSession (commitDownEnv 10) dbPending "abc123" "user-1" "10.0.0.7" "phone").1
      ≠ none ∧
    (ConfirmSession (commitDownEnv 10) dbPending "abc123" "user-1" "10.0.0.7" "phone").2
      = dbPending ∧
    (ConfirmSession (okEnv 10) dbPending "abc123" "user-1" "10.0.0.7" "phone").1 = none ∧
    (ConfirmSession (okEnv 10) dbPending "abc123" "user-1" "10.0.0.7" "phone").2.auditLogs =
      dbPending.auditLogs ++ [signInEvent] :=
  have hc : (commitDownEnv 10).commitErr ≠ none := by decide
  have t := confirm_is_atomic (commitDownEnv 10) dbPending "abc123" "user-1" "10.0.0.7" "phone"
  have hok : (ConfirmSession (okEnv 10) dbPending "abc123" "user-1" "10.0.0.7" "phone").1
      = none := by decide
  ⟨hc, t.1 (Or.inr (Or.inr hc)), t.2.1 (t.1 (Or.inr (Or.inr hc))), hok,
    (confirm_is_atomic (okEnv 10) dbPending "abc123" "user-1" "10.0.0.7" "phone").2.2.1
      hok rfl⟩

/-! ## C7 -/

/-- C7. Exchange on a pending session fails and does not consume it: `ExchangeSession`
returns `TokenInvalidOrExpiredError` and the store it was given, and a following
`ConfirmSession` and then `ExchangeSession`, both within the TTL and with the database
and the JWT service answering, succeed. -/
theorem exchange_on_pending_keeps_session (env₁ env₂ env₃ : Env) (db : DB) (token : String)
    (s : QrLoginSession) (u ip ua cred : String)
    (h : First db token = some s) (hpending : s.IsAuthorized = false)
    (hfind₁ : env₁.findErr = none)
    (hlive₂ : env₂.now ≤ s.ExpiresAt) (hfind₂ : env₂.findErr = none)
    (hsave₂ : env₂.saveErr = none) (hcommit₂ : env₂.commitErr = none)
    (hlive₃ : env₃.now ≤ s.ExpiresAt) (hfind₃ : env₃.findErr = none)
    (hdelete₃ : env₃.deleteErr = none) (hcommit₃ : env₃.commitErr = none)
    (hissue : env₃.GenerateAccessToken (Preload db (some u)) = .ok cred) :
    ExchangeSession env₁ db token =
      ((User.zero, "", some Error.TokenInvalidOrExpiredError), db) ∧
    (ConfirmSession env₂ (ExchangeSession env₁ db token).2 token u ip ua).1 = none ∧
    (ExchangeSession env₃
      (ConfirmSession env₂ (ExchangeSession env₁ db token).2 token u ip ua).2 token).1 =
      (Preload db (some u), cred, none) := by
  have hex := ExchangeSession_rejected hfind₁ h (Or.inr (Or.inl hpending))
  have hev := ConfirmSession_ok hfind₂ hsave₂ hcommit₂ h hlive₂ hpending u ip ua
  have hfirst : First (ConfirmSession env₂ db token u ip ua).2 token =
      some { s with UserID := some u, IsAuthorized := true } := by
    rw [hev]
    simp only [First_auditLogCreate]
    exact First_Save h (First_mem h).2 rfl
  have hpre : Preload (ConfirmSession env₂ db token u ip ua).2 (some u) =
      Preload db (some u) := by
    apply Preload_congr
    rw [hev]
    simp only [users_auditLogCreate, Save]
  refine ⟨hex, ?_, ?_⟩
  · rw [hex, hev]
  · rw [hex]
    simp only []
    rw [ExchangeSession_issued hfind₃ hfirst hlive₃ rfl rfl, hpre, hissue]
    simp [hdelete₃, hcommit₃]

/-- Witness for C7: exchange at time 1 on the pending session, confirmation by `user-1`
at time 2, exchange at time 3. -/
theorem exchange_on_pending_keeps_session_witness :
    ExchangeSession (okEnv 1) dbPending "abc123" =
      ((User.zero, "", some Error.TokenInvalidOrExpiredError), dbPending) ∧
    (ConfirmSession (okEnv 2) (ExchangeSession (okEnv 1) dbPending "abc123").2
      "abc123" "user-1" "10.0.0.7" "phone").1 = none ∧
    (ExchangeSession (okEnv 3)
      (ConfirmSession (okEnv 2) (ExchangeSession (okEnv 1) dbPending "abc123").2
        "abc123" "user-1" "10.0.0.7" "phone").2 "abc123").1 =
      (Preload dbPending (some "user-1"), "jwt:user-1", none) :=
  exchange_on_pending_keeps_session (okEnv 1) (okEnv 2) (okEnv 3) dbPending "abc123"
    pendingSession "user-1" "10.0.0.7" "phone" "jwt:user-1"
    (by decide) rfl rfl (by decide) rfl rfl rfl (by decide) rfl rfl rfl rfl

/-! ## C8 -/

/-- C8. Retry after issuance failure: on an authorized, unexpired session bound to user
`u`, when the JWT service fails `ExchangeSession` returns that error and the store it
was given (the row is still there, authorized), so that a later `ExchangeSession`
within the TTL whose issuance succeeds returns the user and the access token. -/
theorem exchange_retry_after_issuance_failure (env₁ env₂ : Env) (db : DB) (token : String)
    (s : QrLoginSession) (u cred : String) (err : Error)
    (h : First db token = some s) (hauth : s.IsAuthorized = true) (hu : s.UserID = some u)
    (hlive₁ : env₁.now ≤ s.ExpiresAt) (hfind₁ : env₁.findErr = none)
    (hfail : env₁.GenerateAccessToken (Preload db (some u)) = .error err)
    (hlive₂ : env₂.now ≤ s.ExpiresAt) (hfind₂ : env₂.findErr = none)
    (hdelete₂ : env₂.deleteErr = none) (hcommit₂ : env₂.commitErr = none)
    (hissue : env₂.GenerateAccessToken (Preload db (some u)) = .ok cred) :
    ExchangeSession env₁ db token = ((User.zero, "", some err), db) ∧
    First (ExchangeSession env₁ db token).2 token = some s ∧
    (ExchangeSession env₂ (ExchangeSession env₁ db token).2 token).1 =
      (Preload db (some u), cred, none) := by
  have hex : ExchangeSession env₁ db token = ((User.zero, "", some err), db) := by
    rw [ExchangeSession_issued hfind₁ h hlive₁ hauth hu, hfail]
  refine ⟨hex, by rw [hex]; exact h, ?_⟩
  rw [hex]
  simp only []
  rw [ExchangeSession_issued hfind₂ h hlive₂ hauth hu, hissue]
  simp [hdelete₂, hcommit₂]

/-- Witness for C8: the JWT service is down at time 10 and back at time 20. -/
theorem exchange_retry_after_issuance_failure_witness :
    ExchangeSession (issuerDownEnv 10) dbAuthorized "abc123" =
      ((User.zero, "", some (Error.other "no signing key")), dbAuthorized) ∧
    First (ExchangeSession (issuerDownEnv 10) dbAuthorized "abc123").2 "abc123" =
      some authorizedSession ∧
    (ExchangeSession (okEnv 20) (ExchangeSession (issuerDownEnv 10) dbAuthorized "abc123").2
      "abc123").1 = (Preload dbAuthorized (some "user-1"), "jwt:user-1", none) :=
  exchange_retry_after_issuance_failure (issuerDownEnv 10) (okEnv 20) dbAuthorized "abc123"
    authorizedSession "user-1" "jwt:user-1" (Error.other "no signing key")
    (by decide) rfl rfl (by decide) rfl rfl (by decide) rfl rfl rfl rfl

/-! ## Invariants of reachable stores -/

theorem step_authorized_bound {env : Env} {db : DB} {c : Call}
    (h : ∀ r ∈ db.sessions, r.IsAuthorized = true → r.UserID ≠ none) :
    ∀ r ∈ (step env db c).sessions, r.IsAuthorized = true → r.UserID ≠ none := by
  cases c with
  | CreateSession =>
    rcases CreateSession_cases env db with ⟨_, hdb⟩ | ⟨t, _, _, _, hev⟩
    · simpa [step, hdb] using h
    · intro r hr
      simp only [step, hev, Create, List.mem_append, List.mem_singleton] at hr
      rcases hr with hr | hr
      · exact h r hr
      · subst hr
        intro hauth
        simp at hauth
  | GetSessionStatus t => simpa [step, GetSessionStatus_db] using h
  | ConfirmSession t u ip ua =>
    rcases ConfirmSession_cases env db t u ip ua with ⟨_, hdb⟩ | ⟨s, _, _, _, _, _, _, hev⟩
    · simpa [step, hdb] using h
    · intro r hr
      simp only [step, hev, sessions_auditLogCreate, Save, List.mem_map] at hr
      obtain ⟨r₀, hr₀, hrr⟩ := hr
      split at hrr
      · subst hrr
        intro _
        simp
      · subst hrr
        exact h r₀ hr₀
  | ExchangeSession t =>
    rcases ExchangeSession_cases env db t with ⟨_, hdb⟩ | ⟨s, u, cred, _, _, _, _, _, hev⟩
    · simpa [step, hdb] using h
    · intro r hr
      simp only [step, hev, Delete, List.mem_filter] at hr
      exact h r hr.1

theorem run_authorized_bound (trace : List (Env × Call)) :
    ∀ db : DB, (∀ r ∈ db.sessions, r.IsAuthorized = true → r.UserID ≠ none) →
      ∀ r ∈ (run db trace).sessions, r.IsAuthorized = true → r.UserID ≠ none := by
  induction trace with
  | nil => intro db h; simpa [run] using h
  | cons p rest ih =>
    intro db h
    obtain ⟨env, c⟩ := p
    simp only [run]
    exact ih _ (step_authorized_bound h)

/-! ## C9 -/

/-- C9. Authorized implies bound: in every store reachable from the empty store by any
sequence of `CreateSession`, `GetSessionStatus`, `ConfirmSession` and `ExchangeSession`
calls, with any arguments, at any times and under any failures, every session with
`IsAuthorized = true` has a non-null `UserID`. -/
theorem authorized_implies_bound (db : DB) (hreach : Reachable db) :
    ∀ r ∈ db.sessions, r.IsAuthorized = true → r.UserID ≠ none := by
  obtain ⟨users, trace, hrun⟩ := hreach
  rw [← hrun]
  apply run_authorized_bound
  intro r hr
  simp [emptyStore] at hr

/-- Witness for C9: the store reached by `init` and `confirm` holds one authorized
session, bound to `user-1`. -/
theorem authorized_implies_bound_witness :
    Reachable dbConfirmed ∧
    ∀ r ∈ dbConfirmed.sessions, r.IsAuthorized = true → r.UserID ≠ none :=
  have hreach : Reachable dbConfirmed :=
    ⟨[user1], [(okEnv 0, Call.CreateSession),
        (okEnv 2, Call.ConfirmSession "abc123" "user-1" "10.0.0.7" "phone")], by decide⟩
  ⟨hreach, authorized_implies_bound dbConfirmed hreach⟩

/-! ## The primary key, and pending rows -/

theorem step_StoreInv {env : Env} {db : DB} {c : Call} (h : StoreInv db) :
    StoreInv (step env db c) := by
  obtain ⟨hpk, hpend⟩ := h
  cases c with
  | CreateSession =>
    rcases CreateSession_cases env db with ⟨_, hdb⟩ | ⟨t, _, _, hfresh, hev⟩
    · simp only [step, hdb]; exact ⟨hpk, hpend⟩
    · simp only [step, hev, Create]
      refine ⟨?_, ?_⟩
      · intro r₁ h₁ r₂ h₂ hid
        simp only [List.mem_append, List.mem_singleton] at h₁ h₂
        rcases h₁ with h₁ | h₁ <;> rcases h₂ with h₂ | h₂
        · exact hpk r₁ h₁ r₂ h₂ hid
        · subst h₂; exact absurd hid (hfresh r₁ h₁)
        · subst h₁; exact absurd hid.symm (hfresh r₂ h₂)
        · rw [h₁, h₂]
      · intro r hr hfalse
        simp only [List.mem_append, List.mem_singleton] at hr
        rcases hr with hr | hr
        · exact hpend r hr hfalse
        · subst hr; rfl
  | GetSessionStatus t => simp only [step, GetSessionStatus_db]; exact ⟨hpk, hpend⟩
  | ConfirmSession t u ip ua =>
    rcases ConfirmSession_cases env db t u ip ua with ⟨_, hdb⟩ | ⟨s, _, _, _, _, _, _, hev⟩
    · simp only [step, hdb]; exact ⟨hpk, hpend⟩
    · simp only [step, hev, StoreInv, sessions_auditLogCreate, Save, List.mem_map]
      refine ⟨?_, ?_⟩
      · rintro r₁ ⟨a, ha, rfl⟩ r₂ ⟨b, hb, rfl⟩ hid
        by_cases haid : a.ID = s.ID <;> by_cases hbid : b.ID = s.ID
        · simp [haid, hbid]
        · simp only [haid, hbid, if_true, if_false] at hid ⊢
          exact absurd hid.symm hbid
        · simp only [haid, hbid, if_true, if_false] at hid
        · simp only [haid, hbid, if_false] at hid ⊢
          exact hpk a ha b hb hid
      · rintro r ⟨a, ha, rfl⟩ hfalse
        by_cases haid : a.ID = s.ID
        · simp [haid] at hfalse
        · simp only [haid, if_false] at hfalse ⊢
          exact hpend a ha hfalse
  | ExchangeSession t =>
    rcases ExchangeSession_cases env db t with ⟨_, hdb⟩ | ⟨s, u, cred, _, _, _, _, _, hev⟩
    · simp only [step, hdb]; exact ⟨hpk, hpend⟩
    · simp only [step, hev, StoreInv, Delete, List.mem_filter]
      exact ⟨fun r₁ h₁ r₂ h₂ hid => hpk r₁ h₁.1 r₂ h₂.1 hid,
        fun r hr hfalse => hpend r hr.1 hfalse⟩

theorem run_StoreInv (trace : List (Env × Call)) :
    ∀ db : DB, StoreInv db → StoreInv (run db trace) := by
  induction trace with
  | nil => intro db h; simpa [run] using h
  | cons p rest ih =>
    intro db h
    obtain ⟨env, c⟩ := p
    simp only [run]
    exact ih _ (step_StoreInv h)

theorem Reachable_StoreInv {db : DB} (hreach : Reachable db) : StoreInv db := by
  obtain ⟨users, trace, hrun⟩ := hreach
  rw [← hrun]
  apply run_StoreInv
  constructor
  · intro r hr; simp [emptyStore] at hr
  · intro r hr; simp [emptyStore] at hr

/-! ## C10 -/

/-- C10. Monotone record: for every operation on a reachable store and every session
present (under the same primary key) both before and after it, `IsAuthorized` does not
go from true to false, a non-null `UserID` is neither cleared nor replaced, and
`ExpiresAt` is unchanged. -/
theorem record_is_monotone (db : DB) (hreach : Reachable db) (env : Env) (c : Call)
    (r r' : QrLoginSession) (hr : r ∈ db.sessions) (hr' : r' ∈ (step env db c).sessions)
    (hid : r'.ID = r.ID) :
    (r.IsAuthorized = true → r'.IsAuthorized = true) ∧
    (∀ u, r.UserID = some u → r'.UserID = some u) ∧
    r'.ExpiresAt = r.ExpiresAt := by
  obtain ⟨hpk, hpend⟩ := Reachable_StoreInv hreach
  have same : r' ∈ db.sessions → (r.IsAuthorized = true → r'.IsAuthorized = true) ∧
      (∀ u, r.UserID = some u → r'.UserID = some u) ∧ r'.ExpiresAt = r.ExpiresAt := by
    intro hmem
    rw [hpk r' hmem r hr hid]
    exact ⟨id, fun _ => id, rfl⟩
  cases c with
  | CreateSession =>
    rcases CreateSession_cases env db with ⟨_, hdb⟩ | ⟨t, _, _, hfresh, hev⟩
    · exact same (by simpa [step, hdb] using hr')
    · simp only [step, hev, Create, List.mem_append, List.mem_singleton] at hr'
      rcases hr' with hr' | hr'
      · exact same hr'
      · subst hr'
        exact absurd hid.symm (hfresh r hr)
  | GetSessionStatus t => exact same (by simpa [step, GetSessionStatus_db] using hr')
  | ConfirmSession t u ip ua =>
    rcases ConfirmSession_cases env db t u ip ua with ⟨_, hdb⟩ | ⟨s, hs, hfalse, _, _, _, _, hev⟩
    · exact same (by simpa [step, hdb] using hr')
    · simp only [step, hev, sessions_auditLogCreate, Save, List.mem_map] at hr'
      obtain ⟨a, ha, hrr⟩ := hr'
      by_cases haid : a.ID = s.ID
      · simp only [haid, if_true] at hrr
        subst hrr
        have hrs : r = s := hpk r hr s (First_mem hs).1 hid.symm
        subst hrs
        refine ⟨fun _ => rfl, ?_, rfl⟩
        intro u' hu'
        rw [hpend r hr hfalse] at hu'
        exact absurd hu' (by simp)
      · simp only [haid, if_false] at hrr
        subst hrr
        exact same ha
  | ExchangeSession t =>
    rcases ExchangeSession_cases env db t with ⟨_, hdb⟩ | ⟨s, u, cred, _, _, _, _, _, hev⟩
    · exact same (by simpa [step, hdb] using hr')
    · simp only [step, hev, Delete, List.mem_filter] at hr'
      exact same hr'.1

/-- Witness for C10: the pending session reached by `init`, before and after the
confirmation by `user-1`. -/
theorem record_is_monotone_witness :
    Reachable dbPending ∧ pendingSession ∈ dbPending.sessions ∧
    authorizedSession ∈ (step (okEnv 2) dbPending
      (Call.ConfirmSession "abc123" "user-1" "10.0.0.7" "phone")).sessions ∧
    authorizedSession.ID = pendingSession.ID ∧
    ((pendingSession.IsAuthorized = true → authorizedSession.IsAuthorized = true) ∧
      (∀ u, pendingSession.UserID = some u → authorizedSession.UserID = some u) ∧
      authorizedSession.ExpiresAt = pendingSession.ExpiresAt) :=
  have hreach : Reachable dbPending := ⟨[user1], [(okEnv 0, Call.CreateSession)], by decide⟩
  have hr : pendingSession ∈ dbPending.sessions := by decide
  have hr' : authorizedSession ∈ (step (okEnv 2) dbPending
      (Call.ConfirmSession "abc123" "user-1" "10.0.0.7" "phone")).sessions := by decide
  ⟨hreach, hr, hr', rfl,
    record_is_monotone dbPending hreach (okEnv 2)
      (Call.ConfirmSession "abc123" "user-1" "10.0.0.7" "phone")
      pendingSession authorizedSession hr hr' rfl⟩

/-! ## C11 -/

theorem step_TokensUnique {env : Env} {db : DB} {c : Call} (hinv : StoreInv db)
    (h : TokensUnique db)
    (hfresh : c = Call.CreateSession → (CreateSession env db).1.2.2 = none →
      ∀ r ∈ db.sessions, r.Token ≠ (CreateSession env db).1.1) :
    TokensUnique (step env db c) := by
  unfold TokensUnique at h ⊢
  cases c with
  | CreateSession =>
    rcases CreateSession_cases env db with ⟨_, hdb⟩ | ⟨t, _, _, _, hev⟩
    · simpa [step, hdb] using h
    · have hnew := hfresh rfl (by rw [hev])
      rw [hev] at hnew
      simp only [step, hev, Create]
      refine List.pairwise_append.mpr ⟨h, List.pairwise_singleton _ _, ?_⟩
      intro a ha b hb
      simp only [List.mem_singleton] at hb
      subst hb
      exact hnew a ha
  | GetSessionStatus t => simpa [step, GetSessionStatus_db] using h
  | ConfirmSession t u ip ua =>
    rcases ConfirmSession_cases env db t u ip ua with ⟨_, hdb⟩ | ⟨s, hs, _, _, _, _, _, hev⟩
    · simpa [step, hdb] using h
    · simp only [step, hev, sessions_auditLogCreate, Save]
      rw [List.pairwise_map]
      have htok : ∀ a ∈ db.sessions,
          (if a.ID = s.ID then
            ({ s with UserID := some u, IsAuthorized := true } : QrLoginSession)
           else a).Token = a.Token := by
        intro a ha
        by_cases haid : a.ID = s.ID
        · rw [if_pos haid, hinv.1 a ha s (First_mem hs).1 haid]
        · rw [if_neg haid]
      refine List.Pairwise.imp_of_mem ?_ h
      intro a b ha hb hab
      simpa only [htok a ha, htok b hb] using hab
  | ExchangeSession t =>
    rcases ExchangeSession_cases env db t with ⟨_, hdb⟩ | ⟨s, u, cred, _, _, _, _, _, hev⟩
    · simpa [step, hdb] using h
    · simp only [step, hev, Delete]
      exact List.Pairwise.filter _ h

theorem run_TokensUnique (trace : List (Env × Call)) :
    ∀ db : DB, StoreInv db → TokensUnique db → FreshCreates db trace →
      TokensUnique (run db trace) := by
  induction trace with
  | nil => intro db _ h _; simpa [run] using h
  | cons p rest ih =>
    intro db hinv h hfresh
    obtain ⟨env, c⟩ := p
    simp only [run]
    exact ih _ (step_StoreInv hinv) (step_TokensUnique hinv h hfresh.1) hfresh.2

/-- C11, the claim as stated fails: the generator returns `abc123` for two successive
`CreateSession` calls, both inserts succeed, and the store reached from the empty store
holds two different rows with the token `abc123`. -/
theorem duplicate_token_is_reachable :
    run (emptyStore [user1])
        [(okEnv 0, Call.CreateSession), (secondCreateEnv, Call.CreateSession)] =
      { db0 with sessions := [pendingSession, secondSession] } ∧
    (CreateSession secondCreateEnv dbPending).1 = ("abc123", 300, none) ∧
    pendingSession ≠ secondSession ∧
    pendingSession.Token = secondSession.Token ∧
    ¬ TokensUnique (run (emptyStore [user1])
        [(okEnv 0, Call.CreateSession), (secondCreateEnv, Call.CreateSession)]) := by
  unfold TokensUnique
  decide

/-- C11, amended. In every store reached from the empty store by `CreateSession`,
`GetSessionStatus`, `ConfirmSession` and `ExchangeSession` calls in which each
`CreateSession` that inserts a row does so under a token not yet in the store, no two
session rows carry the same token. -/
theorem tokens_unique_of_fresh_creates (users : List User) (trace : List (Env × Call))
    (hfresh : FreshCreates (emptyStore users) trace) :
    TokensUnique (run (emptyStore users) trace) := by
  apply run_TokensUnique trace _ _ _ hfresh
  · constructor
    · intro r hr; simp [emptyStore] at hr
    · intro r hr; simp [emptyStore] at hr
  · simp [TokensUnique, emptyStore]

/-- Witness for amended C11: two `CreateSession` calls drawing `abc123` and `xyz789`. -/
theorem tokens_unique_of_fresh_creates_witness :
    FreshCreates (emptyStore [user1])
      [(okEnv 0, Call.CreateSession), (otherCreateEnv, Call.CreateSession)] ∧
    TokensUnique (run (emptyStore [user1])
      [(okEnv 0, Call.CreateSession), (otherCreateEnv, Call.CreateSession)]) :=
  have hfresh : FreshCreates (emptyStore [user1])
      [(okEnv 0, Call.CreateSession), (otherCreateEnv, Call.CreateSession)] := by
    simp only [FreshCreates]
    decide
  ⟨hfresh, tokens_unique_of_fresh_creates [user1] _ hfresh⟩

/-! ## C12 -/

theorem ConfirmSession_refused {env : Env} {db : DB} {token : String}
    (henv : env.findErr = none) (h : ConfirmRefused env db token) (u ip ua : String) :
    ConfirmSession env db token u ip ua = (some Error.TokenInvalidOrExpiredError, db) := by
  rcases h with h | ⟨s, hs, hcase⟩
  · exact ConfirmSession_notFound henv h u ip ua
  · exact ConfirmSession_rejected henv hs hcase u ip ua

theorem ExchangeSession_refused {env : Env} {db : DB} {token : String}
    (henv : env.findErr = none) (h : ExchangeRefused env db token) :
    ExchangeSession env db token =
      ((User.zero, "", some Error.TokenInvalidOrExpiredError), db) := by
  rcases h with h | ⟨s, hs, hcase⟩
  · exact ExchangeSession_notFound henv h
  · exact ExchangeSession_rejected henv hs hcase

/-- C12. Uniform failure: in any two of its refusal cases (no row, expired, already
authorized) `ConfirmSession` returns the same value, `TokenInvalidOrExpiredError`; in
any two of its refusal cases (no row, expired, pending, authorized with null `UserID`)
`ExchangeSession` returns the same triple, carrying that same error; and the error of
a refused `ConfirmSession` is the error of a refused `ExchangeSession`. The lookups are
answered by the database. -/
theorem refusals_are_uniform (env₁ env₂ : Env) (db₁ db₂ : DB)
    (t₁ t₂ u₁ ip₁ ua₁ u₂ ip₂ ua₂ : String)
    (hfind₁ : env₁.findErr = none) (hfind₂ : env₂.findErr = none) :
    (ConfirmRefused env₁ db₁ t₁ → ConfirmRefused env₂ db₂ t₂ →
      (ConfirmSession env₁ db₁ t₁ u₁ ip₁ ua₁).1 = (ConfirmSession env₂ db₂ t₂ u₂ ip₂ ua₂).1 ∧
      (ConfirmSession env₁ db₁ t₁ u₁ ip₁ ua₁).1 = some Error.TokenInvalidOrExpiredError) ∧
    (ExchangeRefused env₁ db₁ t₁ → ExchangeRefused env₂ db₂ t₂ →
      (ExchangeSession env₁ db₁ t₁).1 = (ExchangeSession env₂ db₂ t₂).1 ∧
      (ExchangeSession env₁ db₁ t₁).1 =
        (User.zero, "", some Error.TokenInvalidOrExpiredError)) ∧
    (ConfirmRefused env₁ db₁ t₁ → ExchangeRefused env₂ db₂ t₂ →
      (ConfirmSession env₁ db₁ t₁ u₁ ip₁ ua₁).1 = (ExchangeSession env₂ db₂ t₂).1.2.2) := by
  refine ⟨?_, ?_, ?_⟩
  · intro h₁ h₂
    rw [ConfirmSession_refused hfind₁ h₁, ConfirmSession_refused hfind₂ h₂]
    exact ⟨rfl, rfl⟩
  · intro h₁ h₂
    rw [ExchangeSession_refused hfind₁ h₁, ExchangeSession_refused hfind₂ h₂]
    exact ⟨rfl, rfl⟩
  · intro h₁ h₂
    rw [ConfirmSession_refused hfind₁ h₁, ExchangeSession_refused hfind₂ h₂]

/-- Witness for C12: an unknown token at time 10 against the confirmed session after
its expiry. -/
theorem refusals_are_uniform_witness :
    ConfirmRefused (okEnv 10) dbAuthorized "nope" ∧
    ExchangeRefused (okEnv 10) dbAuthorized "nope" ∧
    ConfirmRefused (okEnv (QrLoginSessionDuration + 1)) dbAuthorized "abc123" ∧
    ExchangeRefused (okEnv (QrLoginSessionDuration + 1)) dbAuthorized "abc123" ∧
    (ConfirmSession (okEnv 10) dbAuthorized "nope" "user-1" "10.0.0.7" "phone").1 =
      (ConfirmSession (okEnv (QrLoginSessionDuration + 1)) dbAuthorized "abc123"
        "user-2" "10.0.0.8" "tablet").1 ∧
    (ExchangeSession (okEnv 10) dbAuthorized "nope").1 =
      (ExchangeSession (okEnv (QrLoginSessionDuration + 1)) dbAuthorized "abc123").1 ∧
    (ConfirmSession (okEnv 10) dbAuthorized "nope" "user-1" "10.0.0.7" "phone").1 =
      (ExchangeSession (okEnv (QrLoginSessionDuration + 1)) dbAuthorized "abc123").1.2.2 :=
  have c₁ : ConfirmRefused (okEnv 10) dbAuthorized "nope" := Or.inl (by decide)
  have x₁ : ExchangeRefused (okEnv 10) dbAuthorized "nope" := Or.inl (by decide)
  have c₂ : ConfirmRefused (okEnv (QrLoginSessionDuration + 1)) dbAuthorized "abc123" :=
    Or.inr ⟨authorizedSession, by decide, Or.inl (by decide)⟩
  have x₂ : ExchangeRefused (okEnv (QrLoginSessionDuration + 1)) dbAuthorized "abc123" :=
    Or.inr ⟨authorizedSession, by decide, Or.inl (by decide)⟩
  have t := refusals_are_uniform (okEnv 10) (okEnv (QrLoginSessionDuration + 1))
    dbAuthorized dbAuthorized "nope" "abc123" "user-1" "10.0.0.7" "phone"
    "user-2" "10.0.0.8" "tablet" rfl rfl
  ⟨c₁, x₁, c₂, x₂, (t.1 c₁ c₂).1, (t.2.1 x₁ x₂).1, t.2.2 c₁ x₂⟩

/-! ## C13 -/

/-- C13. `CreateSession` postcondition: when the generator returns `t` and the insert
succeeds at time `now`, the call returns `t` and the TTL 300 and the store gains
exactly one row, with token `t`, `ExpiresAt = now + 5 minutes`, `IsAuthorized = false`
and a null `UserID`, everything else being unchanged; when the generator or the insert
fails, that error is returned and the store is unchanged. -/
theorem CreateSession_postcondition (env : Env) (db : DB) :
    (∀ t, env.randomToken = .ok t → env.createErr = none →
      (∀ r ∈ db.sessions, r.ID ≠ env.newID) →
      CreateSession env db =
        ((t, 300, none),
          { db with sessions := db.sessions ++
              [{ ID := env.newID, Token := t, ExpiresAt := env.now + 5 * Minute,
                 IsAuthorized := false, UserID := none }] })) ∧
    (∀ e, env.randomToken = .error e →
      CreateSession env db = (("", 0, some (Error.other e)), db)) ∧
    (∀ t e, env.randomToken = .ok t →
      createError env db
        { ID := env.newID, Token := t, ExpiresAt := env.now + 5 * Minute,
          IsAuthorized := false, UserID := none } = some e →
      CreateSession env db = (("", 0, some (Error.other e)), db)) := by
  refine ⟨?_, ?_, ?_⟩
  · intro t ht hcreate hpk
    have hany : db.sessions.any (fun r => decide (r.ID = env.newID)) = false := by
      rw [List.any_eq_false]
      intro r hr
      simpa using hpk r hr
    have httl : 5 * Minute / Second = 300 := by decide
    simp [CreateSession, ht, createError, hcreate, hany, httl, Create,
      QrLoginSessionDuration]
  · intro e he
    simp [CreateSession, he]
  · intro t e ht herr
    simp only [CreateSession, ht, QrLoginSessionDuration, herr]

/-- Witness for C13: `init` at time 0 on the store without sessions, and the same call
with the generator failing. -/
theorem CreateSession_postcondition_witness :
    CreateSession (okEnv 0) db0 =
      (("abc123", 300, none),
        { db0 with sessions := db0.sessions ++
            [{ ID := "id-1", Token := "abc123", ExpiresAt := 0 + 5 * Minute,
               IsAuthorized := false, UserID := none }] }) ∧
    CreateSession { okEnv 0 with randomToken := .error "entropy source failed" } db0 =
      (("", 0, some (Error.other "entropy source failed")), db0) :=
  ⟨(CreateSession_postcondition (okEnv 0) db0).1 "abc123" rfl rfl (by decide),
    (CreateSession_postcondition { okEnv 0 with randomToken := .error "entropy source failed" }
      db0).2.1 "entropy source failed" rfl⟩

/-! ## C14 -/

theorem First_Create {db : DB} {token : String} {row : QrLoginSession}
    (hnone : ∀ r ∈ db.sessions, r.Token ≠ token) (hrow : row.Token = token) :
    First (Create db row) token = some row := by
  have h : db.sessions.find? (fun r => decide (r.Token = token)) = none :=
    (First_eq_none_iff db token).mpr hnone
  simp [First, Create, List.find?_append, h, hrow]

/-- C14. In a store where the generated token is not already present, after a successful
`CreateSession` the call `GetSessionStatus` on the returned token, at any time not
after the new `ExpiresAt` (the lookup being answered), returns false with no error. -/
theorem status_after_create (env₁ env₂ : Env) (db : DB)
    (hok : (CreateSession env₁ db).1.2.2 = none)
    (hfresh : ∀ r ∈ db.sessions, r.Token ≠ (CreateSession env₁ db).1.1)
    (hfind : env₂.findErr = none)
    (hlive : env₂.now ≤ env₁.now + QrLoginSessionDuration) :
    (GetSessionStatus env₂ (CreateSession env₁ db).2 (CreateSession env₁ db).1.1).1 =
      (false, none) := by
  rcases CreateSession_cases env₁ db with ⟨herr, _⟩ | ⟨t, _, _, _, hev⟩
  · exact absurd hok herr
  · rw [hev] at hfresh ⊢
    rw [GetSessionStatus_found hfind (First_Create hfresh rfl)]
    exact if_neg (Nat.not_lt.mpr hlive)

/-- Witness for C14: `init` at time 0, `status` exactly at the expiry. -/
theorem status_after_create_witness :
    (CreateSession (okEnv 0) db0).1.2.2 = none ∧
    (GetSessionStatus (okEnv QrLoginSessionDuration) (CreateSession (okEnv 0) db0).2
      (CreateSession (okEnv 0) db0).1.1).1 = (false, none) :=
  have hok : (CreateSession (okEnv 0) db0).1.2.2 = none := by decide
  ⟨hok, status_after_create (okEnv 0) (okEnv QrLoginSessionDuration) db0 hok (by decide) rfl
    (by decide)⟩

/-! ## C15 -/

/-- C15. After `ConfirmSession` succeeded on the session a token addresses,
`GetSessionStatus` on that token at any time not after `ExpiresAt` (the lookup being
answered) returns true with no error. -/
theorem status_after_confirm (env₁ env₂ : Env) (db : DB) (token u ip ua : String)
    (s : QrLoginSession) (h : First db token = some s)
    (hok : (ConfirmSession env₁ db token u ip ua).1 = none)
    (hfind : env₂.findErr = none) (hlive : env₂.now ≤ s.ExpiresAt) :
    (GetSessionStatus env₂ (ConfirmSession env₁ db token u ip ua).2 token).1 =
      (true, none) := by
  rcases ConfirmSession_cases env₁ db token u ip ua with
    ⟨herr, _⟩ | ⟨s', hs', _, _, _, _, _, hev⟩
  · exact absurd hok herr
  · have hss : s' = s := by rw [h] at hs'; exact (Option.some.inj hs').symm
    subst hss
    have hfirst : First (ConfirmSession env₁ db token u ip ua).2 token =
        some { s' with UserID := some u, IsAuthorized := true } := by
      rw [hev]
      simp only [First_auditLogCreate]
      exact First_Save h (First_mem h).2 rfl
    rw [GetSessionStatus_found hfind hfirst]
    exact if_neg (Nat.not_lt.mpr hlive)

/-- Witness for C15: confirmation by `user-1` at time 2, `status` at time 3. -/
theorem status_after_confirm_witness :
    (ConfirmSession (okEnv 2) dbPending "abc123" "user-1" "10.0.0.7" "phone").1 = none ∧
    (GetSessionStatus (okEnv 3)
      (ConfirmSession (okEnv 2) dbPending "abc123" "user-1" "10.0.0.7" "phone").2
      "abc123").1 = (true, none) :=
  have hok : (ConfirmSession (okEnv 2) dbPending "abc123" "user-1" "10.0.0.7" "phone").1
      = none := by decide
  ⟨hok, status_after_confirm (okEnv 2) (okEnv 3) dbPending "abc123" "user-1" "10.0.0.7"
    "phone" pendingSession (by decide) hok rfl (by decide)⟩

/-! ## C16 -/

/-- C16. Rollback by default: whenever `GetSessionStatus`, `ConfirmSession` or
`ExchangeSession` returns an error, of either kind, the store after the call is the
store before it. -/
theorem errors_roll_back (env : Env) (db : DB) (token u ip ua : String) :
    ((GetSessionStatus env db token).1.2 ≠ none → (GetSessionStatus env db token).2 = db) ∧
    ((ConfirmSession env db token u ip ua).1 ≠ none →
      (ConfirmSession env db token u ip ua).2 = db) ∧
    ((ExchangeSession env db token).1.2.2 ≠ none → (ExchangeSession env db token).2 = db) := by
  refine ⟨fun _ => GetSessionStatus_db env db token, ?_, ?_⟩
  · intro herr
    rcases ConfirmSession_cases env db token u ip ua with ⟨_, hdb⟩ | ⟨s, _, _, _, _, _, _, hev⟩
    · exact hdb
    · rw [hev] at herr
      exact absurd rfl herr
  · intro herr
    rcases ExchangeSession_cases env db token with ⟨_, hdb⟩ | ⟨s, u', cred, _, _, _, _, _, hev⟩
    · exact hdb
    · rw [hev] at herr
      exact absurd rfl herr

/-- Witness for C16: with the commit failing, a confirmation and an exchange that got
as far as the commit leave their stores as they were. -/
theorem errors_roll_back_witness :
    (ConfirmSession (commitDownEnv 10) dbPending "abc123" "user-1" "10.0.0.7" "phone").1 =
      some (Error.other "database is locked") ∧
    (ConfirmSession (commitDownEnv 10) dbPending "abc123" "user-1" "10.0.0.7" "phone").2 =
      dbPending ∧
    (ExchangeSession (commitDownEnv 10) dbAuthorized "abc123").1.2.2 =
      some (Error.other "database is locked") ∧
    (ExchangeSession (commitDownEnv 10) dbAuthorized "abc123").2 = dbAuthorized :=
  ⟨by decide,
    (errors_roll_back (commitDownEnv 10) dbPending "abc123" "user-1" "10.0.0.7" "phone").2.1
      (by decide),
    by decide,
    (errors_roll_back (commitDownEnv 10) dbAuthorized "abc123" "user-1" "10.0.0.7"
      "phone").2.2 (by decide)⟩

/-! ## C18 -/

/-- C18. `GetSessionStatus` is fully characterised: when the lookup itself does not
fail, it returns `TokenInvalidOrExpiredError` exactly when the token has no row or
`now` is strictly after `ExpiresAt`, and otherwise the row's `IsAuthorized` flag with
no error, in particular at `now = ExpiresAt`; and it never changes the store. -/
theorem GetSessionStatus_characterised (env : Env) (db : DB) (token : String)
    (hfind : env.findErr = none) :
    ((GetSessionStatus env db token).1.2 = some Error.TokenInvalidOrExpiredError ↔
      (First db token = none ∨ ∃ s, First db token = some s ∧ env.now > s.ExpiresAt)) ∧
    (∀ s, First db token = some s → env.now ≤ s.ExpiresAt →
      (GetSessionStatus env db token).1 = (s.IsAuthorized, none)) ∧
    (∀ s, First db token = some s → env.now = s.ExpiresAt →
      (GetSessionStatus env db token).1 = (s.IsAuthorized, none)) ∧
    (GetSessionStatus env db token).2 = db := by
  have hlive : ∀ s, First db token = some s → env.now ≤ s.ExpiresAt →
      (GetSessionStatus env db token).1 = (s.IsAuthorized, none) := by
    intro s hs hle
    rw [GetSessionStatus_found hfind hs]
    exact if_neg (Nat.not_lt.mpr hle)
  refine ⟨?_, hlive, fun s hs heq => hlive s hs (Nat.le_of_eq heq),
    GetSessionStatus_db env db token⟩
  cases h : First db token with
  | none => simp [GetSessionStatus, hfind, h]
  | some s =>
    rw [GetSessionStatus_found hfind h]
    by_cases hexp : env.now > s.ExpiresAt
    · simp [hexp]
    · simp [hexp]

/-- Witness for C18: the confirmed session polled exactly at its expiry. -/
theorem GetSessionStatus_characterised_witness :
    (GetSessionStatus (okEnv QrLoginSessionDuration) dbAuthorized "abc123").1 =
      (authorizedSession.IsAuthorized, none) ∧
    (GetSessionStatus (okEnv QrLoginSessionDuration) dbAuthorized "abc123").2 =
      dbAuthorized :=
  have t := GetSessionStatus_characterised (okEnv QrLoginSessionDuration) dbAuthorized
    "abc123" rfl
  ⟨t.2.2.1 authorizedSession (by decide) (by decide), t.2.2.2⟩

/-! ## C19 -/

/-- Every run of `ExchangeSession` either returns the zero user, the empty string and an
error, leaving the database as it was, or returns no error after the delete and the
commit both succeeded. -/
theorem ExchangeSession_outcome (env : Env) (db : DB) (token : String) :
    (∃ e, ExchangeSession env db token = ((User.zero, "", some e), db)) ∨
    ∃ s u cred, First db token = some s ∧ s.IsAuthorized = true ∧ s.UserID = some u ∧
      env.deleteErr = none ∧ env.commitErr = none ∧
      ExchangeSession env db token = ((Preload db (some u), cred, none), Delete db s) := by
  cases hfind : env.findErr with
  | some e => left; exact ⟨Error.other e, by simp [ExchangeSession, hfind]⟩
  | none =>
    cases h : First db token with
    | none => left; exact ⟨_, ExchangeSession_notFound hfind h⟩
    | some s =>
      by_cases hexp : env.now > s.ExpiresAt
      · left; exact ⟨_, ExchangeSession_rejected hfind h (Or.inl hexp)⟩
      · cases hauth : s.IsAuthorized with
        | false => left; exact ⟨_, ExchangeSession_rejected hfind h (Or.inr (Or.inl hauth))⟩
        | true =>
          cases hu : s.UserID with
          | none => left; exact ⟨_, ExchangeSession_rejected hfind h (Or.inr (Or.inr hu))⟩
          | some u =>
            have hev := ExchangeSession_issued hfind h (Nat.not_lt.mp hexp) hauth hu
            cases hgen : env.GenerateAccessToken (Preload db (some u)) with
            | error err => left; exact ⟨err, by rw [hev, hgen]⟩
            | ok cred =>
              cases hdel : env.deleteErr with
              | some e => left; exact ⟨Error.other e, by rw [hev, hgen]; simp only [hdel]⟩
              | none =>
                cases hcommit : env.commitErr with
                | some e =>
                  left; exact ⟨Error.other e, by rw [hev, hgen]; simp only [hdel, hcommit]⟩
                | none =>
                  right
                  refine ⟨s, u, cred, rfl, hauth, hu, rfl, rfl, ?_⟩
                  rw [hev, hgen]; simp only [hdel, hcommit]

/-- C19. No credential without consumption: `ExchangeSession` returns a non-zero user
or a non-empty access token only when it returns no error, the delete and the commit
succeeded and the row it read is deleted from the store; and when the delete or the
commit fails after the access token was generated, it returns an error with the zero
user and the empty string, the store being unchanged and the row still there. -/
theorem no_credential_without_consumption (env : Env) (db : DB) (token : String) :
    (((ExchangeSession env db token).1.1 ≠ User.zero ∨
        (ExchangeSession env db token).1.2.1 ≠ "") →
      (ExchangeSession env db token).1.2.2 = none ∧
      env.deleteErr = none ∧ env.commitErr = none ∧
      ∃ s, First db token = some s ∧ (ExchangeSession env db token).2 = Delete db s ∧
        s ∉ (ExchangeSession env db token).2.sessions) ∧
    (∀ s u cred, First db token = some s → s.IsAuthorized = true → s.UserID = some u →
      env.now ≤ s.ExpiresAt → env.findErr = none →
      env.GenerateAccessToken (Preload db (some u)) = .ok cred →
      (env.deleteErr ≠ none ∨ env.commitErr ≠ none) →
      (ExchangeSession env db token).1.1 = User.zero ∧
      (ExchangeSession env db token).1.2.1 = "" ∧
      (ExchangeSession env db token).1.2.2 ≠ none ∧
      (ExchangeSession env db token).2 = db ∧
      First (ExchangeSession env db token).2 token = some s) := by
  refine ⟨?_, ?_⟩
  · intro hret
    rcases ExchangeSession_outcome env db token with
      ⟨e, hev⟩ | ⟨s, u, cred, hs, _, _, hdel, hcommit, hev⟩
    · rw [hev] at hret
      simp at hret
    · refine ⟨by rw [hev], hdel, hcommit, s, hs, by rw [hev], ?_⟩
      rw [hev]
      simp [Delete, List.mem_filter]
  · intro s u cred hs hauth hu hlive hfind hgen hfail
    rcases ExchangeSession_outcome env db token with
      ⟨e, hev⟩ | ⟨s', u', cred', _, _, _, hdel, hcommit, _⟩
    · rw [hev]
      exact ⟨rfl, rfl, by simp, rfl, hs⟩
    · rcases hfail with hfail | hfail
      · exact absurd hdel hfail
      · exact absurd hcommit hfail

/-- Witness for C19: on the confirmed session, a successful exchange returns `user-1`
and deletes the row; with the `DELETE` failing, nothing is returned and the row stays. -/
theorem no_credential_without_consumption_witness :
    ((ExchangeSession (okEnv 10) dbAuthorized "abc123").1.2.2 = none ∧
      (okEnv 10).deleteErr = none ∧ (okEnv 10).commitErr = none ∧
      ∃ s, First dbAuthorized "abc123" = some s ∧
        (ExchangeSession (okEnv 10) dbAuthorized "abc123").2 = Delete dbAuthorized s ∧
        s ∉ (ExchangeSession (okEnv 10) dbAuthorized "abc123").2.sessions) ∧
    ((ExchangeSession (deleteDownEnv 10) dbAuthorized "abc123").1.1 = User.zero ∧
      (ExchangeSession (deleteDownEnv 10) dbAuthorized "abc123").1.2.1 = "" ∧
      (ExchangeSession (deleteDownEnv 10) dbAuthorized "abc123").1.2.2 ≠ none ∧
      (ExchangeSession (deleteDownEnv 10) dbAuthorized "abc123").2 = dbAuthorized ∧
      First (ExchangeSession (deleteDownEnv 10) dbAuthorized "abc123").2 "abc123" =
        some authorizedSession) :=
  ⟨(no_credential_without_consumption (okEnv 10) dbAuthorized "abc123").1
      (Or.inl (by decide)),
    (no_credential_without_consumption (deleteDownEnv 10) dbAuthorized "abc123").2
      authorizedSession "user-1" "jwt:user-1" (by decide) rfl rfl (by decide) rfl rfl
      (Or.inl (by decide))⟩

/-! ## C20 -/

theorem find_map_other (l : List QrLoginSession) (token : String) (s' : QrLoginSession)
    (hs' : s'.Token ≠ token) (hl : ∀ a ∈ l, a.ID = s'.ID → a.Token ≠ token) :
    (l.map (fun r => if r.ID = s'.ID then s' else r)).find?
      (fun r => decide (r.Token = token)) =
    l.find? (fun r => decide (r.Token = token)) := by
  induction l with
  | nil => rfl
  | cons a rest ih =>
    have ihr := ih (fun b hb => hl b (List.mem_cons_of_mem _ hb))
    by_cases haid : a.ID = s'.ID
    · have ha : a.Token ≠ token := hl a (List.mem_cons_self _ _) haid
      simp [List.find?_cons, haid, hs', ha, ihr]
    · by_cases ha : a.Token = token
      · simp [List.find?_cons, haid, ha]
      · simp [List.find?_cons, haid, ha, ihr]

theorem find_filter_other (l : List QrLoginSession) (token : String) (s : QrLoginSession)
    (hl : ∀ a ∈ l, a.ID = s.ID → a.Token ≠ token) :
    (l.filter (fun r => decide (r.ID ≠ s.ID))).find? (fun r => decide (r.Token = token)) =
    l.find? (fun r => decide (r.Token = token)) := by
  induction l with
  | nil => rfl
  | cons a rest ih =>
    have ihr := ih (fun b hb => hl b (List.mem_cons_of_mem _ hb))
    by_cases haid : a.ID = s.ID
    · have ha : a.Token ≠ token := hl a (List.mem_cons_self _ _) haid
      simpa [List.filter_cons, List.find?_cons, haid, ha, -List.find?_filter] using ihr
    · by_cases ha : a.Token = token
      · simp [List.filter_cons, List.find?_cons, haid, ha, -List.find?_filter]
      · simpa [List.filter_cons, List.find?_cons, haid, ha, -List.find?_filter] using ihr

theorem other_rows_of_key {db : DB} {t t' : String} {s : QrLoginSession}
    (hne : t ≠ t') (hpk : PrimaryKey db) (hs : First db t = some s) :
    ∀ a ∈ db.sessions, a.ID = s.ID → a.Token ≠ t' := by
  intro a ha haid htok
  have has : a = s := hpk a ha s (First_mem hs).1 haid
  rw [has, (First_mem hs).2] at htok
  exact hne htok

/-- C20. Session isolation: in a store whose primary key identifies rows, for tokens
`t ≠ t'` the calls `GetSessionStatus`, `ConfirmSession` and `ExchangeSession` with `t`
leave the row of `t'` as it was; and the values they return for `t` are the same in
any two stores that agree on the row of `t` as it is loaded, that is on the session
row and on the user it is joined with: they do not depend on which other sessions
exist. -/
theorem sessions_are_isolated (env : Env) (db db₂ : DB) (t t' u ip ua : String)
    (hne : t ≠ t') (hpk : PrimaryKey db)
    (hrow : First db₂ t = First db t)
    (hjoin : ∀ s, First db t = some s → Preload db₂ s.UserID = Preload db s.UserID) :
    (First (GetSessionStatus env db t).2 t' = First db t' ∧
      First (ConfirmSession env db t u ip ua).2 t' = First db t' ∧
      First (ExchangeSession env db t).2 t' = First db t') ∧
    ((GetSessionStatus env db₂ t).1 = (GetSessionStatus env db t).1 ∧
      (ConfirmSession env db₂ t u ip ua).1 = (ConfirmSession env db t u ip ua).1 ∧
      (ExchangeSession env db₂ t).1 = (ExchangeSession env db t).1) := by
  refine ⟨⟨?_, ?_, ?_⟩, ⟨?_, ?_, ?_⟩⟩
  · rw [GetSessionStatus_db]
  · rcases ConfirmSession_cases env db t u ip ua with ⟨_, hdb⟩ | ⟨s, hs, _, _, _, _, _, hev⟩
    · rw [hdb]
    · rw [hev]
      simp only [First_auditLogCreate]
      unfold First Save
      exact find_map_other db.sessions t'
        { s with UserID := some u, IsAuthorized := true }
        (by rw [show ({ s with UserID := some u, IsAuthorized := true } :
          QrLoginSession).Token = t from (First_mem hs).2]; exact hne)
        (fun a ha haid => other_rows_of_key hne hpk hs a ha haid)
  · rcases ExchangeSession_cases env db t with ⟨_, hdb⟩ | ⟨s, u', cred, hs, _, _, _, _, hev⟩
    · rw [hdb]
    · rw [hev]
      unfold First Delete
      exact find_filter_other db.sessions t' s (other_rows_of_key hne hpk hs)
  · unfold GetSessionStatus
    rw [hrow]
    repeat' split
    all_goals rfl
  · unfold ConfirmSession
    rw [hrow]
    repeat' split
    all_goals rfl
  · unfold ExchangeSession
    rw [hrow]
    cases hfind : env.findErr with
    | some e => rfl
    | none =>
      cases h : First db t with
      | none => rfl
      | some s =>
        simp only [hjoin s h]
        repeat' split
        all_goals rfl

/-- Witness for C20: the call on `abc123` in the store that also holds `xyz789`, compared
with the store that only holds `abc123`. -/
theorem sessions_are_isolated_witness :
    (First (GetSessionStatus (okEnv 10) dbTwo "abc123").2 "xyz789" = First dbTwo "xyz789" ∧
      First (ConfirmSession (okEnv 10) dbTwo "abc123" "user-1" "10.0.0.7" "phone").2 "xyz789"
        = First dbTwo "xyz789" ∧
      First (ExchangeSession (okEnv 10) dbTwo "abc123").2 "xyz789" = First dbTwo "xyz789") ∧
    ((GetSessionStatus (okEnv 10) dbAuthorized "abc123").1 =
        (GetSessionStatus (okEnv 10) dbTwo "abc123").1 ∧
      (ConfirmSession (okEnv 10) dbAuthorized "abc123" "user-1" "10.0.0.7" "phone").1 =
        (ConfirmSession (okEnv 10) dbTwo "abc123" "user-1" "10.0.0.7" "phone").1 ∧
      (ExchangeSession (okEnv 10) dbAuthorized "abc123").1 =
        (ExchangeSession (okEnv 10) dbTwo "abc123").1) :=
  sessions_are_isolated (okEnv 10) dbTwo dbAuthorized "abc123" "xyz789" "user-1" "10.0.0.7"
    "phone" (by decide)
    (by
      intro r₁ h₁ r₂ h₂ hid
      simp only [dbTwo, List.mem_cons, List.mem_singleton, List.not_mem_nil, or_false]
        at h₁ h₂
      rcases h₁ with h₁ | h₁ <;> rcases h₂ with h₂ | h₂ <;> subst h₁ <;> subst h₂ <;>
        first | rfl | exact absurd hid (by decide))
    (by decide) (fun _ _ => rfl)

end QrLogin
